import Mathlib

/-!
# Verification of the InitWare socket activation unit (src/cmd/manager/socket.c)

This file shallowly embeds the socket unit state machine of
`src/cmd/manager/socket.c` into Lean 4 and proves properties of it.

Modelling conventions:
* C enums become Lean inductive types in source order.
* `SocketPort.fd` is `Option Nat`: `none` models `fd < 0` (closed),
  `some n` models an open descriptor.  `fd_watch` registration is the
  Boolean `watched`.
* Calls into the rest of the manager (`exec_spawn`, `unit_watch_fd`,
  `unit_kill_context`, `manager_add_job`, `service_set_socket_fd`,
  `getsockname`/`getpeername`, endpoint creation syscalls, ...) are
  external collaborators; their outcomes are an explicit `Env` record
  so that every branch of the C code is reachable in the model.
* The key/value serialization lines are modelled structurally
  (constructor per key); the textual encode/parse pairs
  (`socket_state_to_string`/`from_string` etc. and `%i %s` formatting)
  are mutually inverse in the source, so a structured line carries
  exactly the information of the C line.  `fdset_put_dup` duplicates a
  descriptor: the copy denotes the same open file description, which we
  name by the pre-reexec descriptor number.
-/

/-- `SocketState` from socket.h, in the order of `state_translation_table`. -/
inductive SocketState
  | dead
  | startPre
  | startChown
  | startPost
  | listening
  | running
  | stopPre
  | stopPreSigterm
  | stopPreSigkill
  | stopPost
  | finalSigterm
  | finalSigkill
  | failed
deriving DecidableEq, Repr

/-- `SocketResult` from socket.h (`socket_result_table`). -/
inductive SocketResult
  | success
  | failureResources
  | failureTimeout
  | failureExitCode
  | failureSignal
  | failureCoreDump
  | failureServicePermanent
deriving DecidableEq, Repr

/-- `SocketExecCommand` from socket.h (`socket_exec_command_table`). -/
inductive SocketExecCommand
  | startPre
  | startChown
  | startPost
  | stopPre
  | stopPost
deriving DecidableEq, Repr

/-- One `ExecCommand` of a command list; only the `ignore` flag
(`exec_command->ignore`) is consulted by socket.c. -/
structure Cmd where
  ignore : Bool
deriving DecidableEq, Repr

/-- The identity of a `SocketPort` used for matching during
deserialization: FIFO/special/mqueue ports match by `p->path`, socket
ports by printed address plus socket type (`socket_address_is`), and
netlink ports by printed address (`socket_address_is_netlink`). -/
inductive PortKey
  | fifo (path : String)
  | special (path : String)
  | mqueue (path : String)
  | sockaddr (addr : String) (stype : Nat)
  | netlink (addr : String)
deriving DecidableEq, Repr

/-- A `SocketPort`: its matching identity, its descriptor
(`none` models `fd = -1`) and whether `fd_watch` is registered. -/
structure SocketPort where
  key : PortKey
  fd : Option Nat
  watched : Bool
deriving DecidableEq, Repr

/-- The `exec_command` array of the unit: one ordered command list per
`SocketExecCommand` id (the chown slot is always empty: chown is
synthetic). -/
structure ExecCommands where
  startPre : List Cmd
  startChown : List Cmd
  startPost : List Cmd
  stopPre : List Cmd
  stopPost : List Cmd
deriving DecidableEq, Repr

/-- Index `exec_command[id]`. -/
def ExecCommands.get (e : ExecCommands) : SocketExecCommand → List Cmd
  | .startPre => e.startPre
  | .startChown => e.startChown
  | .startPost => e.startPost
  | .stopPre => e.stopPre
  | .stopPost => e.stopPost

/-- The runtime state of one socket unit (the fields of `struct Socket`
that the embedded functions read or write). -/
structure Sock where
  state : SocketState
  result : SocketResult
  nAccepted : Nat
  nConnections : Nat
  maxConnections : Nat
  controlPid : Nat                         -- 0 models "no control child"
  controlCommandId : Option SocketExecCommand  -- none models _SOCKET_EXEC_COMMAND_INVALID
  controlCommand : List Cmd                -- cursor: head = current command, [] models NULL
  timerArmed : Bool
  ports : List SocketPort
  deserializedState : SocketState
  execCommand : ExecCommands
  accept : Bool
  serviceSet : Bool                        -- UNIT_ISSET(s->service)
  hasUserOrGroup : Bool                    -- !isempty(s->user) || !isempty(s->group)
  sendSigkill : Bool                       -- s->kill_context.send_sigkill
deriving DecidableEq, Repr

/-- Result of `unit_kill_context`: negative return, zero
(no processes), or positive (processes signalled). -/
inductive KillOut
  | err
  | noProcs
  | alive
deriving DecidableEq, Repr

/-- Outcome of `instance_from_socket`. -/
inductive InstOutcome
  | ok
  | errEnotconn
  | errOther
deriving DecidableEq, Repr

/-- Outcomes of the external collaborators consulted by socket.c. -/
structure Env where
  stopPending : Bool                       -- unit_stop_pending(UNIT(s))
  triggerPending : Bool                    -- some UNIT_TRIGGERS dependency active_or_pending
  spawnOk : SocketExecCommand → Bool       -- socket_spawn (timer/exec/watch-pid) succeeds
  pidFor : SocketExecCommand → Nat         -- pid returned by exec_spawn
  runNextOk : Bool                         -- socket_spawn inside socket_run_next succeeds
  chownForkPid : Option Nat                -- socket_chown: some pid on success
  watchTimerOk : Bool                      -- unit_watch_timer inside socket_enter_signal
  watchFdOk : Nat → Bool                   -- unit_watch_fd per descriptor
  killOutcome : SocketState → KillOut      -- unit_kill_context, per target state
  labelPhaseOk : Bool                      -- socket_instantiate_service + label lookup in socket_open_fds
  openOutcome : PortKey → Option Nat       -- endpoint creation, some fd on success
  instantiateOk : Bool                     -- socket_instantiate_service in socket_enter_running
  serviceLoaded : Bool                     -- UNIT(service)->load_state == UNIT_LOADED
  serviceActive : Bool                     -- triggered service not DEAD/FAILED/AUTO_RESTART
  instanceLookup : InstOutcome             -- instance_from_socket
  prefixNameOk : Bool                      -- unit_name_to_prefix succeeds (no ENOMEM)
  nameBuildOk : Bool                       -- unit_name_build succeeds
  addNameOk : Bool                         -- unit_add_name succeeds
  setSocketFdOk : Bool                     -- service_set_socket_fd succeeds
  addJobOk : Bool                          -- manager_add_job succeeds

/-- The result-latching statement that every transition function of
socket.c performs verbatim: `if (f != SOCKET_SUCCESS) s->result = f;`. -/
def latchResult (f : SocketResult) (s : Sock) : Sock :=
  if f ≠ .success then { s with result := f } else s

/-- `socket_unwatch_control_pid`. -/
def socket_unwatch_control_pid (s : Sock) : Sock :=
  { s with controlPid := 0 }

/-- `socket_close_fds`: for every open port, unwatch and close; closed
ports are skipped (their flags untouched). -/
def socket_close_fds (s : Sock) : Sock :=
  { s with ports := s.ports.map fun p =>
      if p.fd.isSome then { p with fd := none, watched := false } else p }

/-- `socket_unwatch_fds`: remove the I/O watch of every open port;
closed ports are skipped. -/
def socket_unwatch_fds (s : Sock) : Sock :=
  { s with ports := s.ports.map fun p =>
      if p.fd.isSome then { p with watched := false } else p }

/-- `socket_watch_fds`: watch every open port; if `unit_watch_fd` fails
for some open port the function unwatches everything again
(`fail: socket_unwatch_fds`) and reports the error. -/
def socket_watch_fds (env : Env) (s : Sock) : Except Sock Sock :=
  if s.ports.all (fun p => match p.fd with
      | none => true
      | some fd => env.watchFdOk fd) then
    .ok { s with ports := s.ports.map fun p =>
        if p.fd.isSome then { p with watched := true } else p }
  else
    .error (socket_unwatch_fds s)

/-- The states of the first guard of `socket_set_state` (the ones that
keep timer, control pid and control command cursor). -/
def controlStates : List SocketState :=
  [.startPre, .startChown, .startPost, .stopPre, .stopPreSigterm,
   .stopPreSigkill, .stopPost, .finalSigterm, .finalSigkill]

/-- The states of the third guard of `socket_set_state` (the ones that
keep the endpoint fds open). -/
def openFdStates : List SocketState :=
  [.startChown, .startPost, .listening, .running, .stopPre,
   .stopPreSigterm, .stopPreSigkill]

/-- The first guard of `socket_set_state`: outside the control states
drop timer, control pid and the command cursor. -/
def clearControl (st : SocketState) (s : Sock) : Sock :=
  if st ∈ controlStates then s
  else { s with timerArmed := false, controlPid := 0,
                controlCommand := [], controlCommandId := none }

/-- The second guard of `socket_set_state`: outside LISTENING unwatch
all fds. -/
def maybeUnwatchFds (st : SocketState) (s : Sock) : Sock :=
  if st = .listening then s else socket_unwatch_fds s

/-- The third guard of `socket_set_state`: outside the open-fd states
close all fds. -/
def maybeCloseFds (st : SocketState) (s : Sock) : Sock :=
  if st ∈ openFdStates then s else socket_close_fds s

/-- `socket_set_state`, exactly as in the source: set the state field,
then run the three guards in source order. -/
def socket_set_state (st : SocketState) (s : Sock) : Sock :=
  maybeCloseFds st (maybeUnwatchFds st (clearControl st { s with state := st }))

/-- `socket_spawn`: arm the timer, then spawn; on any failure
(`exec_spawn`, `unit_watch_pid`, ...) the timer is unwatched again and
an error is returned. -/
def socket_spawn (env : Env) (id : SocketExecCommand) (s : Sock) :
    Except Sock (Sock × Nat) :=
  let s1 : Sock := { s with timerArmed := true }
  if env.spawnOk id then .ok (s1, env.pidFor id)
  else .error { s1 with timerArmed := false }

/-- `socket_enter_dead`: latch the result, then go to FAILED when the
latched result is a failure, else DEAD. -/
def socket_enter_dead (f : SocketResult) (s : Sock) : Sock :=
  let s := latchResult f s
  socket_set_state (if s.result ≠ .success then .failed else .dead) s

/-- The common body of `socket_enter_signal`: latch the result, run
`unit_kill_context`; while processes remain alive arm the timer and
enter the given signal state; otherwise (no processes, kill error, or
timer failure, the two error paths carrying FAILURE_RESOURCES) continue
along `cont` — the C function picks `socket_enter_stop_post` for the
StopPre signal states and `socket_enter_dead` otherwise. -/
def socket_enter_signal_core (env : Env) (st : SocketState) (f : SocketResult)
    (s : Sock) (cont : SocketResult → Sock → Sock) : Sock :=
  let s := latchResult f s
  match env.killOutcome st with
  | .err => cont .failureResources s
  | .alive =>
    if env.watchTimerOk then socket_set_state st { s with timerArmed := true }
    else cont .failureResources s
  | .noProcs => cont .success s

/-- `socket_enter_signal` as invoked with the final signal states
(continuing with `socket_enter_dead`). -/
def socket_enter_signal_final (env : Env) (st : SocketState) (f : SocketResult)
    (s : Sock) : Sock :=
  socket_enter_signal_core env st f s socket_enter_dead

/-- `socket_enter_stop_post`: latch, drop the control child, point the
cursor at the StopPost command list; spawn it and enter STOP_POST, or
without commands (or on spawn failure with FAILURE_RESOURCES) fall
through to `socket_enter_signal(FINAL_SIGTERM)`. -/
def socket_enter_stop_post (env : Env) (f : SocketResult) (s : Sock) : Sock :=
  let s := latchResult f s
  let s := socket_unwatch_control_pid s
  let cmds := s.execCommand.get .stopPost
  let s := { s with controlCommandId := some .stopPost, controlCommand := cmds }
  if cmds ≠ [] then
    match socket_spawn env .stopPost s with
    | .ok (s1, pid) => socket_set_state .stopPost { s1 with controlPid := pid }
    | .error s1 => socket_enter_signal_final env .finalSigterm .failureResources s1
  else
    socket_enter_signal_final env .finalSigterm .success s

/-- `socket_enter_signal`: latch, run `unit_kill_context`; if processes
remain alive arm the timer and enter the given signal state; if none
remain (or on error, with FAILURE_RESOURCES) continue with
`socket_enter_stop_post` from the StopPre signal states and with
`socket_enter_dead` otherwise. -/
def socket_enter_signal (env : Env) (st : SocketState) (f : SocketResult)
    (s : Sock) : Sock :=
  if st = .stopPreSigterm ∨ st = .stopPreSigkill then
    socket_enter_signal_core env st f s (socket_enter_stop_post env)
  else
    socket_enter_signal_final env st f s

/-- `socket_enter_stop_pre`: latch, point the cursor at StopPre; spawn
and enter STOP_PRE, or fall through to `socket_enter_stop_post`. -/
def socket_enter_stop_pre (env : Env) (f : SocketResult) (s : Sock) : Sock :=
  let s := latchResult f s
  let s := socket_unwatch_control_pid s
  let cmds := s.execCommand.get .stopPre
  let s := { s with controlCommandId := some .stopPre, controlCommand := cmds }
  if cmds ≠ [] then
    match socket_spawn env .stopPre s with
    | .ok (s1, pid) => socket_set_state .stopPre { s1 with controlPid := pid }
    | .error s1 => socket_enter_stop_post env .failureResources s1
  else
    socket_enter_stop_post env .success s

/-- `socket_enter_listening`: watch all fds and enter LISTENING; on a
watch failure enter the stop path with FAILURE_RESOURCES. -/
def socket_enter_listening (env : Env) (s : Sock) : Sock :=
  match socket_watch_fds env s with
  | .ok s1 => socket_set_state .listening s1
  | .error s1 => socket_enter_stop_pre env .failureResources s1

/-- `socket_enter_start_post`: point the cursor at StartPost; spawn it
and enter START_POST, or without commands go straight to listening; a
spawn failure enters the stop path. -/
def socket_enter_start_post (env : Env) (s : Sock) : Sock :=
  let s := socket_unwatch_control_pid s
  let cmds := s.execCommand.get .startPost
  let s := { s with controlCommandId := some .startPost, controlCommand := cmds }
  if cmds ≠ [] then
    match socket_spawn env .startPost s with
    | .ok (s1, pid) => socket_set_state .startPost { s1 with controlPid := pid }
    | .error s1 => socket_enter_stop_pre env .failureResources s1
  else
    socket_enter_listening env s

/-- Result of the `socket_open_fds` port loop: success, a plain
early `return r` (the service-instantiation/label phase of the first
socket-type port), or a `goto rollback`. -/
inductive OpenOutcome
  | ok (ports : List SocketPort)
  | errReturn (ports : List SocketPort)
  | errRollback (ports : List SocketPort)
deriving DecidableEq, Repr

/-- Does this port key take the `SOCKET_SOCKET` branch of the loop
(and hence the label phase)? -/
def PortKey.isSocketKind : PortKey → Bool
  | .sockaddr _ _ => true
  | .netlink _ => true
  | _ => false

/-- The `IWLIST_FOREACH` loop of `socket_open_fds`: ports are visited
in list order, already-open ports are skipped, a closed port is opened
via its per-kind creation call; the first socket-kind port first runs
`socket_instantiate_service` and the label lookup (whose failure is a
plain `return`), and any creation failure is a `goto rollback`.
`know` models `know_label`. -/
def socket_open_fds_loop (env : Env) (know : Bool) :
    List SocketPort → OpenOutcome
  | [] => .ok []
  | p :: rest =>
    if p.fd.isSome then
      match socket_open_fds_loop env know rest with
      | .ok ps => .ok (p :: ps)
      | .errReturn ps => .errReturn (p :: ps)
      | .errRollback ps => .errRollback (p :: ps)
    else if p.key.isSocketKind ∧ ¬ know ∧ ¬ env.labelPhaseOk then
      .errReturn (p :: rest)
    else
      match env.openOutcome p.key with
      | some fd =>
        match socket_open_fds_loop env (know ∨ p.key.isSocketKind) rest with
        | .ok ps => .ok ({ p with fd := some fd } :: ps)
        | .errReturn ps => .errReturn ({ p with fd := some fd } :: ps)
        | .errRollback ps => .errRollback ({ p with fd := some fd } :: ps)
      | none => .errRollback (p :: rest)

/-- `socket_open_fds`: run the loop; on `goto rollback` close
everything with `socket_close_fds`; an early `return` closes
nothing. -/
def socket_open_fds (env : Env) (s : Sock) : Except Sock Sock :=
  match socket_open_fds_loop env false s.ports with
  | .ok ps => .ok { s with ports := ps }
  | .errReturn ps => .error { s with ports := ps }
  | .errRollback ps => .error (socket_close_fds { s with ports := ps })

/-- The chown branch of `socket_enter_start_chown`: drop the control
child, mark the synthetic StartChown command (cursor NULL), fork the
chown helper (`socket_chown`) and enter START_CHOWN; a fork failure
enters the stop path. -/
def socket_start_chown_branch (env : Env) (s1 : Sock) : Sock :=
  let s2 := socket_unwatch_control_pid s1
  let s2 := { s2 with controlCommandId := some SocketExecCommand.startChown,
                      controlCommand := [] }
  match env.chownForkPid with
  | some pid => socket_set_state .startChown { s2 with controlPid := pid }
  | none => socket_enter_stop_pre env .failureResources s2

/-- `socket_enter_start_chown`: open all fds (failure enters the stop
path); with a configured user or group fork the chown helper and
enter START_CHOWN, else continue with `socket_enter_start_post`. -/
def socket_enter_start_chown (env : Env) (s : Sock) : Sock :=
  match socket_open_fds env s with
  | .error s1 => socket_enter_stop_pre env .failureResources s1
  | .ok s1 =>
    if s1.hasUserOrGroup then socket_start_chown_branch env s1
    else socket_enter_start_post env s1

/-- `socket_enter_start_pre`: point the cursor at StartPre; spawn it
and enter START_PRE, or without commands continue with
`socket_enter_start_chown`; a spawn failure goes to
`socket_enter_dead(FAILURE_RESOURCES)`. -/
def socket_enter_start_pre (env : Env) (s : Sock) : Sock :=
  let s := socket_unwatch_control_pid s
  let cmds := s.execCommand.get .startPre
  let s := { s with controlCommandId := some .startPre, controlCommand := cmds }
  if cmds ≠ [] then
    match socket_spawn env .startPre s with
    | .ok (s1, pid) => socket_set_state .startPre { s1 with controlPid := pid }
    | .error s1 => socket_enter_dead .failureResources s1
  else
    socket_enter_start_chown env s

/-- What became of an accepted connection fd handed to
`socket_enter_running`: there was none, it was closed locally
(`safe_close(cfd)` with `cfd >= 0`), or ownership was transferred to
the minted service (`service_set_socket_fd` succeeded, `cfd = -1`). -/
inductive CfdFate
  | noFd
  | closedLocal
  | handedOff
deriving DecidableEq, Repr

/-- `socket_instantiate_service`: a no-op when `s->service` is set,
else mint the next connection service. -/
def socket_instantiate_service (env : Env) (s : Sock) : Except Sock Sock :=
  if s.serviceSet then .ok s
  else if env.instantiateOk then .ok { s with serviceSet := true }
  else .error s

/-- The stop-pending flush of `socket_enter_running` with no accepted
fd: close all fds and re-run `socket_watch_fds` (whose failure enters
the stop path).  Note: no `socket_set_state` call on this path. -/
def socket_running_flush (env : Env) (s : Sock) : Sock :=
  match socket_watch_fds env (socket_close_fds s) with
  | .ok s2 => s2
  | .error s2 => socket_enter_stop_pre env .failureResources s2

/-- The `cfd < 0` branch of `socket_enter_running`: ensure a start job
for the single triggered service unless one is pending, then enter
RUNNING; missing service or job failure enters the stop path. -/
def socket_running_trigger (env : Env) (s : Sock) : Sock :=
  if env.triggerPending then socket_set_state .running s
  else if ¬ s.serviceSet then socket_enter_stop_pre env .failureResources s
  else if ¬ env.addJobOk then socket_enter_stop_pre env .failureResources s
  else socket_set_state .running s

/-- The tail of the accept branch after the instance lookup succeeded:
name building and `unit_add_name` failures abort to the stop path with
the fd closed locally; then `s->service` is released and `n_accepted`
incremented, `service_set_socket_fd` transfers the fd (on failure it
is closed locally), `n_connections` is incremented, and a start job is
enqueued (whose failure aborts to the stop path, the fd staying with
the service: `safe_close(-1)` is a no-op). -/
def socket_running_handoff (env : Env) (s1 : Sock) : Sock × CfdFate :=
  if ¬ env.prefixNameOk then
    (socket_enter_stop_pre env .failureResources s1, .closedLocal)
  else if ¬ env.nameBuildOk then
    (socket_enter_stop_pre env .failureResources s1, .closedLocal)
  else if ¬ env.addNameOk then
    (socket_enter_stop_pre env .failureResources s1, .closedLocal)
  else
    let s2 := { s1 with serviceSet := false, nAccepted := s1.nAccepted + 1 }
    if ¬ env.setSocketFdOk then
      (socket_enter_stop_pre env .failureResources s2, .closedLocal)
    else
      let s3 := { s2 with nConnections := s2.nConnections + 1 }
      if ¬ env.addJobOk then
        (socket_enter_stop_pre env .failureResources s3, .handedOff)
      else (s3, .handedOff)

/-- The accept branch of `socket_enter_running` (`cfd >= 0`): refuse at
the connection limit; mint the next service; look the instance name up
(ENOTCONN drops the connection silently, other errors abort to the
stop path); then hand off. -/
def socket_running_accept (env : Env) (s : Sock) : Sock × CfdFate :=
  if s.nConnections ≥ s.maxConnections then (s, .closedLocal)
  else
    match socket_instantiate_service env s with
    | .error s1 => (socket_enter_stop_pre env .failureResources s1, .closedLocal)
    | .ok s1 =>
      match env.instanceLookup with
      | .errEnotconn => (s1, .closedLocal)
      | .errOther => (socket_enter_stop_pre env .failureResources s1, .closedLocal)
      | .ok => socket_running_handoff env s1

/-- `socket_enter_running`: the activation dispatcher, translated
branch for branch.  `cfd = none` models `cfd < 0`. -/
def socket_enter_running (env : Env) (cfd : Option Nat) (s : Sock) :
    Sock × CfdFate :=
  if env.stopPending then
    match cfd with
    | some _ => (s, .closedLocal)
    | none => (socket_running_flush env s, .noFd)
  else
    match cfd with
    | none => (socket_running_trigger env s, .noFd)
    | some _ => socket_running_accept env s

/-- `socket_run_next`: advance the command cursor and spawn the next
command of the same id; on failure dispatch on the current state. -/
def socket_run_next (env : Env) (s : Sock) : Sock :=
  let s := socket_unwatch_control_pid s
  let s := { s with controlCommand := s.controlCommand.tail }
  if env.runNextOk then
    { s with timerArmed := true,
             controlPid := env.pidFor (s.controlCommandId.getD .startPre) }
  else
    let s := { s with timerArmed := true }
    let s := { s with timerArmed := false }
    if s.state = .startPost then socket_enter_stop_pre env .failureResources s
    else if s.state = .stopPost then socket_enter_dead .failureResources s
    else socket_enter_signal env .finalSigterm .failureResources s

/-- The classification input of `socket_sigchld_event`
(`is_clean_exit` and the `CLD_*` codes). -/
inductive ExitKind
  | clean
  | exitedNonzero
  | killedBySignal
  | dumped
deriving DecidableEq, Repr

/-- `SocketResult` computed from the exit classification. -/
def resultOfExit : ExitKind → SocketResult
  | .clean => .success
  | .exitedNonzero => .failureExitCode
  | .killedBySignal => .failureSignal
  | .dumped => .failureCoreDump

/-- The final switch of `socket_sigchld_event`: dispatch the next
state on the dying one (the default case is assert_not_reached). -/
def socket_sigchld_dispatch (env : Env) (f : SocketResult) (s : Sock) : Sock :=
  match s.state with
  | .startPre =>
    if f = .success then socket_enter_start_chown env s
    else socket_enter_signal env .finalSigterm f s
  | .startChown =>
    if f = .success then socket_enter_start_post env s
    else socket_enter_stop_pre env f s
  | .startPost =>
    if f = .success then socket_enter_listening env s
    else socket_enter_stop_pre env f s
  | .stopPre => socket_enter_stop_post env f s
  | .stopPreSigterm => socket_enter_stop_post env f s
  | .stopPreSigkill => socket_enter_stop_post env f s
  | .stopPost => socket_enter_dead f s
  | .finalSigterm => socket_enter_dead f s
  | .finalSigkill => socket_enter_dead f s
  | _ => s

/-- `socket_sigchld_event`: ignore foreign pids; classify the exit,
apply the ignore flag of the current command, latch, then either run
the next command of the list or dispatch the next state on the
current one. -/
def socket_sigchld_event (env : Env) (pid : Nat) (k : ExitKind) (s : Sock) : Sock :=
  if pid ≠ s.controlPid then s
  else
    let s := { s with controlPid := 0 }
    let f := resultOfExit k
    let f := match s.controlCommand with
      | c :: _ => if c.ignore then .success else f
      | [] => f
    let s := latchResult f s
    if s.controlCommand ≠ [] ∧ s.controlCommand.tail ≠ [] ∧ f = .success then
      socket_run_next env s
    else
      socket_sigchld_dispatch env f
        { s with controlCommand := [], controlCommandId := none }

/-- `socket_timer_event`: the timeout dispatch table, translated case
for case (the default case is assert_not_reached). -/
def socket_timer_event (env : Env) (s : Sock) : Sock :=
  match s.state with
  | .startPre => socket_enter_signal env .finalSigterm .failureTimeout s
  | .startChown => socket_enter_stop_pre env .failureTimeout s
  | .startPost => socket_enter_stop_pre env .failureTimeout s
  | .stopPre => socket_enter_signal env .stopPreSigterm .failureTimeout s
  | .stopPreSigterm =>
    if s.sendSigkill then socket_enter_signal env .stopPreSigkill .failureTimeout s
    else socket_enter_stop_post env .failureTimeout s
  | .stopPreSigkill => socket_enter_stop_post env .failureTimeout s
  | .stopPost => socket_enter_signal env .finalSigterm .failureTimeout s
  | .finalSigterm =>
    if s.sendSigkill then socket_enter_signal env .finalSigkill .failureTimeout s
    else socket_enter_dead .failureTimeout s
  | .finalSigkill => socket_enter_dead .failureTimeout s
  | _ => s

/-- `socket_start` (return code, new state): busy stop states return
-EAGAIN, in-flight start states return 0, then the triggered-service
checks, then (state is DEAD or FAILED) the result is reset to Success
and START_PRE is entered. -/
def socket_start (env : Env) (s : Sock) : Int × Sock :=
  if s.state = .stopPre ∨ s.state = .stopPreSigkill ∨ s.state = .stopPreSigterm ∨
     s.state = .stopPost ∨ s.state = .finalSigterm ∨ s.state = .finalSigkill then
    (-11, s)          -- -EAGAIN
  else if s.state = .startPre ∨ s.state = .startChown ∨ s.state = .startPost then
    (0, s)
  else if s.serviceSet ∧ ¬ env.serviceLoaded then
    (-2, s)           -- -ENOENT
  else if s.serviceSet ∧ env.serviceActive then
    (-16, s)          -- -EBUSY
  else if s.state = .dead ∨ s.state = .failed then
    (0, socket_enter_start_pre env { s with result := .success })
  else
    (0, s)            -- assert(s->state == SOCKET_DEAD || SOCKET_FAILED)

/-- `socket_stop`: stop states return 0; start states jump to the
STOP_PRE_SIGTERM kill path and return -EAGAIN; LISTENING/RUNNING enter
the regular stop path. -/
def socket_stop (env : Env) (s : Sock) : Int × Sock :=
  if s.state = .stopPre ∨ s.state = .stopPreSigterm ∨ s.state = .stopPreSigkill ∨
     s.state = .stopPost ∨ s.state = .finalSigterm ∨ s.state = .finalSigkill then
    (0, s)
  else if s.state = .startPre ∨ s.state = .startChown ∨ s.state = .startPost then
    (-11, socket_enter_signal env .stopPreSigterm .success s)
  else if s.state = .listening ∨ s.state = .running then
    (0, socket_enter_stop_pre env .success s)
  else
    (0, s)            -- assert(s->state == SOCKET_LISTENING || SOCKET_RUNNING)

/-- `socket_fd_event`: only acted upon in LISTENING; bad poll events
enter the stop path, otherwise `socket_enter_running` runs. -/
def socket_fd_event (env : Env) (goodEvent : Bool) (cfd : Option Nat) (s : Sock) : Sock :=
  if s.state ≠ .listening then s
  else if ¬ goodEvent then socket_enter_stop_pre env .failureResources s
  else (socket_enter_running env cfd s).1

/-- `socket_notify_service_dead`: only in RUNNING; a permanent service
failure stops the socket, otherwise it goes back to listening. -/
def socket_notify_service_dead (env : Env) (failedPermanent : Bool) (s : Sock) : Sock :=
  if s.state = .running then
    if failedPermanent then socket_enter_stop_pre env .failureServicePermanent s
    else socket_enter_listening env s
  else s

/-- `socket_connection_unref` (asserts `n_connections > 0`). -/
def socket_connection_unref (s : Sock) : Sock :=
  if s.nConnections > 0 then { s with nConnections := s.nConnections - 1 } else s

/-- `socket_reset_failed`. -/
def socket_reset_failed (s : Sock) : Sock :=
  let s := if s.state = .failed then socket_set_state .dead s else s
  { s with result := .success }

/-- One serialized key/value line, structurally.  The port lines carry
the duplicated descriptor (named by the open file description it
shares with the original) plus the port identity exactly as printed by
`socket_serialize`. -/
inductive SerLine
  | stateLine (v : SocketState)
  | resultLine (v : SocketResult)
  | nAcceptedLine (v : Nat)
  | controlPidLine (v : Nat)
  | controlCommandLine (v : SocketExecCommand)
  | fifoLine (fd : Nat) (path : String)
  | specialLine (fd : Nat) (path : String)
  | mqueueLine (fd : Nat) (path : String)
  | socketLine (fd : Nat) (stype : Nat) (addr : String)
  | netlinkLine (fd : Nat) (addr : String)
deriving DecidableEq, Repr

/-- The port line `socket_serialize` emits for one open port. -/
def portLine (k : PortKey) (fd : Nat) : SerLine :=
  match k with
  | .fifo path => .fifoLine fd path
  | .special path => .specialLine fd path
  | .mqueue path => .mqueueLine fd path
  | .sockaddr addr stype => .socketLine fd stype addr
  | .netlink addr => .netlinkLine fd addr

/-- The port lines of the `IWLIST_FOREACH` loop of `socket_serialize`:
one line per open port, in port order. -/
def portLinesOf (l : List SocketPort) : List SerLine :=
  l.filterMap fun p => p.fd.map fun fd => portLine p.key fd

/-- `socket_serialize`: state, result and n-accepted always;
control-pid only when positive; control-command only when valid; then
one line per open port, in port order, carrying the duplicated fd. -/
def socket_serialize (s : Sock) : List SerLine :=
  [.stateLine s.state, .resultLine s.result, .nAcceptedLine s.nAccepted]
  ++ (if s.controlPid > 0 then [SerLine.controlPidLine s.controlPid] else [])
  ++ (match s.controlCommandId with
      | some id => [SerLine.controlCommandLine id]
      | none => [])
  ++ portLinesOf s.ports

/-- The descriptors `socket_serialize` dups into the shared fd set:
every open port descriptor, in port order. -/
def serializedFds (s : Sock) : List Nat :=
  s.ports.filterMap SocketPort.fd

/-- Does a deserialized port line match this port?  (`p->type` plus
`streq_ptr(p->path, ...)` for fifo/special/mqueue, `socket_address_is`
for socket, `socket_address_is_netlink` for netlink.) -/
def lineMatchesPort (line : SerLine) (p : SocketPort) : Bool :=
  match line with
  | .fifoLine _ path => p.key = .fifo path
  | .specialLine _ path => p.key = .special path
  | .mqueueLine _ path => p.key = .mqueue path
  | .socketLine _ stype addr => p.key = .sockaddr addr stype
  | .netlinkLine _ addr => p.key = .netlink addr
  | _ => false

/-- The `IWLIST_FOREACH` search of `socket_deserialize_item`: close
the FIRST matching port's old fd and transplant the deserialized fd
into it; no match leaves the list unchanged. -/
def transplantFd (line : SerLine) (fd : Nat) : List SocketPort → List SocketPort
  | [] => []
  | p :: rest =>
    if lineMatchesPort line p then { p with fd := some fd } :: rest
    else p :: transplantFd line fd rest

/-- The fd a port line carries. -/
def lineFd : SerLine → Option Nat
  | .fifoLine fd _ => some fd
  | .specialLine fd _ => some fd
  | .mqueueLine fd _ => some fd
  | .socketLine fd _ _ => some fd
  | .netlinkLine fd _ => some fd
  | _ => none

/-- `socket_deserialize_item` for one line, threading the shared fd
set: `state` fills `deserialized_state`; `result` is applied only when
it is not Success; `n-accepted` is ADDED to the counter; `control-pid`
and `control-command` restore their fields; a port line whose fd is in
the fd set is transplanted into the first matching port and the fd is
removed from the set. -/
def socket_deserialize_item (fds : List Nat) (line : SerLine) (s : Sock) :
    Sock × List Nat :=
  match line with
  | .stateLine v => ({ s with deserializedState := v }, fds)
  | .resultLine v =>
    (if v ≠ .success then { s with result := v } else s, fds)
  | .nAcceptedLine k => ({ s with nAccepted := s.nAccepted + k }, fds)
  | .controlPidLine pid => ({ s with controlPid := pid }, fds)
  | .controlCommandLine id =>
    ({ s with controlCommandId := some id,
              controlCommand := s.execCommand.get id }, fds)
  | line =>
    match lineFd line with
    | some fd =>
      if fds.contains fd then
        ({ s with ports := transplantFd line fd s.ports }, fds.erase fd)
      else (s, fds)
    | none => (s, fds)

/-- Feed a whole list of serialized lines to `socket_deserialize_item`
in order, threading the unit and the fd set. -/
def socket_deserialize (lines : List SerLine) (fds : List Nat) (s : Sock) :
    Sock × List Nat :=
  match lines with
  | [] => (s, fds)
  | l :: rest =>
    let (s1, fds1) := socket_deserialize_item fds l s
    socket_deserialize rest fds1 s1

/-- A freshly loaded unit with the same configuration and endpoint
list: runtime fields at their `socket_init` defaults, every port
closed and unwatched. -/
def freshOf (s : Sock) : Sock :=
  { s with state := .dead, result := .success, nAccepted := 0,
           nConnections := 0, controlPid := 0, controlCommandId := none,
           controlCommand := [], timerArmed := false,
           deserializedState := .dead,
           ports := s.ports.map fun p => { p with fd := none, watched := false } }

/-- An external stimulus of the unit state machine. -/
inductive Event
  | start
  | stop
  | fdReadable (cfd : Option Nat)
  | fdBadEvent
  | sigchld (pid : Nat) (k : ExitKind)
  | timer
  | serviceDead (failedPermanent : Bool)
  | connectionUnref
  | resetFailed
deriving DecidableEq, Repr

/-- One step of the unit state machine under an environment. -/
def step (env : Env) (e : Event) (s : Sock) : Sock :=
  match e with
  | .start => (socket_start env s).2
  | .stop => (socket_stop env s).2
  | .fdReadable cfd => socket_fd_event env true cfd s
  | .fdBadEvent => socket_fd_event env false none s
  | .sigchld pid k => socket_sigchld_event env pid k s
  | .timer => socket_timer_event env s
  | .serviceDead fp => socket_notify_service_dead env fp s
  | .connectionUnref => socket_connection_unref s
  | .resetFailed => socket_reset_failed s


/-! ## The fd/watch invariant -/

/-- A watch is only ever held on an open descriptor. -/
def WOpen (s : Sock) : Prop :=
  ∀ p ∈ s.ports, p.watched = true → p.fd.isSome = true

/-- The endpoint invariant of the spec: fds are open only in the
open-fd states, and a port is watched exactly when the unit is
LISTENING and the port is open. -/
def SockInv (s : Sock) : Prop :=
  (∀ p ∈ s.ports, p.fd.isSome = true → s.state ∈ openFdStates) ∧
  (∀ p ∈ s.ports, p.watched = true ↔ (s.state = SocketState.listening ∧ p.fd.isSome = true))

lemma SockInv.wOpen {s : Sock} (h : SockInv s) : WOpen s :=
  fun p hp hw => ((h.2 p hp).1 hw).2

lemma all_unwatched_map (l : List SocketPort)
    (h : ∀ p ∈ l, p.watched = true → p.fd.isSome = true) :
    ∀ p ∈ l.map (fun p => if p.fd.isSome then { p with watched := false } else p),
      p.watched = false := by
  intro p hp
  simp only [List.mem_map] at hp
  obtain ⟨q, hq, rfl⟩ := hp
  by_cases hf : q.fd.isSome
  · rw [if_pos hf]
  · rw [if_neg hf]
    cases hw : q.watched
    · rfl
    · exact absurd (h q hq hw) hf

lemma all_unwatched_close_map (l : List SocketPort)
    (h : ∀ p ∈ l, p.watched = false) :
    ∀ p ∈ l.map (fun p => if p.fd.isSome then { p with fd := none, watched := false } else p),
      p.watched = false := by
  intro p hp
  simp only [List.mem_map] at hp
  obtain ⟨q, hq, rfl⟩ := hp
  by_cases hf : q.fd.isSome
  · rw [if_pos hf]
  · rw [if_neg hf]
    exact h q hq

lemma all_closed_map (l : List SocketPort)
    (h : ∀ p ∈ l, p.watched = true → p.fd.isSome = true) :
    ∀ p ∈ l.map (fun p => if p.fd.isSome then { p with fd := none, watched := false } else p),
      p.fd = none ∧ p.watched = false := by
  intro p hp
  simp only [List.mem_map] at hp
  obtain ⟨q, hq, rfl⟩ := hp
  by_cases hf : q.fd.isSome
  · rw [if_pos hf]
    exact ⟨rfl, rfl⟩
  · rw [if_neg hf]
    refine ⟨Option.not_isSome_iff_eq_none.mp hf, ?_⟩
    cases hw : q.watched
    · rfl
    · exact absurd (h q hq hw) hf

lemma watched_iff_map_watch (l : List SocketPort)
    (h : ∀ p ∈ l, p.watched = true → p.fd.isSome = true) :
    ∀ p ∈ l.map (fun p => if p.fd.isSome then { p with watched := true } else p),
      p.watched = true ↔ p.fd.isSome = true := by
  intro p hp
  simp only [List.mem_map] at hp
  obtain ⟨q, hq, rfl⟩ := hp
  by_cases hf : q.fd.isSome
  · rw [if_pos hf]
    simp [hf]
  · rw [if_neg hf]
    constructor
    · intro hw
      exact absurd (h q hq hw) hf
    · intro hw
      exact absurd hw hf

lemma clearControl_state (st : SocketState) (s : Sock) :
    (clearControl st s).state = s.state := by
  unfold clearControl
  split <;> rfl

lemma clearControl_ports (st : SocketState) (s : Sock) :
    (clearControl st s).ports = s.ports := by
  unfold clearControl
  split <;> rfl

lemma clearControl_simple (st : SocketState) (s : Sock) :
    (clearControl st s).result = s.result ∧
    (clearControl st s).nAccepted = s.nAccepted ∧
    (clearControl st s).nConnections = s.nConnections := by
  unfold clearControl
  split <;> exact ⟨rfl, rfl, rfl⟩

lemma set_state_state (st : SocketState) (s : Sock) :
    (socket_set_state st s).state = st := by
  unfold socket_set_state maybeCloseFds maybeUnwatchFds socket_close_fds socket_unwatch_fds
  split <;> split <;> simp [clearControl_state]

lemma set_state_result (st : SocketState) (s : Sock) :
    (socket_set_state st s).result = s.result := by
  unfold socket_set_state maybeCloseFds maybeUnwatchFds socket_close_fds socket_unwatch_fds
  split <;> split <;> simp [(clearControl_simple st _).1]

lemma set_state_counters (st : SocketState) (s : Sock) :
    (socket_set_state st s).nAccepted = s.nAccepted ∧
    (socket_set_state st s).nConnections = s.nConnections := by
  unfold socket_set_state maybeCloseFds maybeUnwatchFds socket_close_fds socket_unwatch_fds
  split <;> split <;>
    simp [(clearControl_simple st _).2.1, (clearControl_simple st _).2.2]

lemma set_state_ports_listening (s : Sock) :
    (socket_set_state .listening s).ports = s.ports := by
  unfold socket_set_state maybeCloseFds maybeUnwatchFds
  rw [if_pos rfl, if_pos (by decide : SocketState.listening ∈ openFdStates)]
  exact clearControl_ports _ _

lemma set_state_unwatched (st : SocketState) (s : Sock) (h : WOpen s)
    (hst : st ≠ .listening) :
    ∀ p ∈ (socket_set_state st s).ports, p.watched = false := by
  unfold socket_set_state maybeCloseFds maybeUnwatchFds
  rw [if_neg hst]
  have hun : ∀ p ∈ (socket_unwatch_fds (clearControl st { s with state := st })).ports,
      p.watched = false := by
    unfold socket_unwatch_fds
    rw [clearControl_ports]
    exact all_unwatched_map s.ports h
  split
  · exact hun
  · unfold socket_close_fds
    exact all_unwatched_close_map _ hun

lemma set_state_closed (st : SocketState) (s : Sock) (h : WOpen s)
    (hst : st ∉ openFdStates) :
    ∀ p ∈ (socket_set_state st s).ports, p.fd = none ∧ p.watched = false := by
  have hne : st ≠ .listening := by
    intro hcontra
    rw [hcontra] at hst
    exact hst (by decide)
  unfold socket_set_state maybeCloseFds maybeUnwatchFds
  rw [if_neg hst, if_neg hne]
  unfold socket_close_fds socket_unwatch_fds
  rw [clearControl_ports]
  intro p hp
  refine all_closed_map _ ?_ p hp
  intro q hq hw
  rw [all_unwatched_map s.ports h q hq] at hw
  exact absurd hw (by simp)

/-- Entering a non-LISTENING state re-establishes the invariant from
the weak precondition alone. -/
lemma SockInv_set_state_of_ne (st : SocketState) (s : Sock) (h : WOpen s)
    (hst : st ≠ .listening) : SockInv (socket_set_state st s) := by
  constructor
  · intro p hp hopen
    rw [set_state_state]
    by_cases hin : st ∈ openFdStates
    · exact hin
    · rw [(set_state_closed st s h hin p hp).1] at hopen
      simp at hopen
  · intro p hp
    rw [set_state_state]
    simp [set_state_unwatched st s h hst p hp, hst]

/-- Entering LISTENING keeps the invariant when every port is watched
exactly if open. -/
lemma SockInv_set_state_listening (s : Sock)
    (h : ∀ p ∈ s.ports, p.watched = p.fd.isSome) :
    SockInv (socket_set_state .listening s) := by
  constructor
  · intro p hp _
    rw [set_state_state]
    decide
  · intro p hp
    rw [set_state_state]
    rw [set_state_ports_listening] at hp
    simp [h p hp]

lemma WOpen_of_ports_eq {s t : Sock} (hp : t.ports = s.ports) (h : WOpen s) :
    WOpen t := by
  unfold WOpen at h ⊢
  rw [hp]
  exact h

lemma SockInv_of_eqs {s t : Sock} (hp : t.ports = s.ports)
    (hs : t.state = s.state) (h : SockInv s) : SockInv t := by
  unfold SockInv at h ⊢
  rw [hp, hs]
  exact h

lemma latch_ports (f : SocketResult) (s : Sock) :
    (latchResult f s).ports = s.ports := by
  unfold latchResult
  split <;> rfl

lemma latch_state (f : SocketResult) (s : Sock) :
    (latchResult f s).state = s.state := by
  unfold latchResult
  split <;> rfl

lemma spawn_ok_eqs {env : Env} {id : SocketExecCommand} {s s1 : Sock} {pid : Nat}
    (h : socket_spawn env id s = .ok (s1, pid)) :
    s1.ports = s.ports ∧ s1.state = s.state ∧ s1.result = s.result := by
  unfold socket_spawn at h
  split at h
  · cases h
    exact ⟨rfl, rfl, rfl⟩
  · cases h

lemma spawn_err_eqs {env : Env} {id : SocketExecCommand} {s s1 : Sock}
    (h : socket_spawn env id s = .error s1) :
    s1.ports = s.ports ∧ s1.state = s.state ∧ s1.result = s.result := by
  unfold socket_spawn at h
  split at h
  · cases h
  · cases h
    exact ⟨rfl, rfl, rfl⟩

lemma SockInv_enter_dead (f : SocketResult) (s : Sock) (h : WOpen s) :
    SockInv (socket_enter_dead f s) := by
  simp only [socket_enter_dead]
  have h1 : WOpen (latchResult f s) := WOpen_of_ports_eq (latch_ports f s) h
  split
  · exact SockInv_set_state_of_ne _ _ h1 (by decide)
  · exact SockInv_set_state_of_ne _ _ h1 (by decide)

lemma SockInv_signal_core (env : Env) (st : SocketState) (f : SocketResult)
    (s : Sock) (cont : SocketResult → Sock → Sock) (hst : st ≠ .listening)
    (h : WOpen s) (hcont : ∀ f' s', WOpen s' → SockInv (cont f' s')) :
    SockInv (socket_enter_signal_core env st f s cont) := by
  simp only [socket_enter_signal_core]
  have h1 : WOpen (latchResult f s) := WOpen_of_ports_eq (latch_ports f s) h
  rcases env.killOutcome st with _ | _ | _
  · exact hcont _ _ h1
  · exact hcont _ _ h1
  · show SockInv (if env.watchTimerOk = true then
        socket_set_state st { latchResult f s with timerArmed := true }
      else cont .failureResources (latchResult f s))
    split
    · exact SockInv_set_state_of_ne _ _ (WOpen_of_ports_eq rfl h1) hst
    · exact hcont _ _ h1

lemma SockInv_enter_signal_final (env : Env) (st : SocketState)
    (f : SocketResult) (s : Sock) (hst : st ≠ .listening) (h : WOpen s) :
    SockInv (socket_enter_signal_final env st f s) :=
  SockInv_signal_core env st f s _ hst h
    (fun f' s' h' => SockInv_enter_dead f' s' h')

lemma SockInv_enter_stop_post (env : Env) (f : SocketResult) (s : Sock)
    (h : WOpen s) : SockInv (socket_enter_stop_post env f s) := by
  have h1 : WOpen (latchResult f s) := WOpen_of_ports_eq (latch_ports f s) h
  simp only [socket_enter_stop_post]
  split
  · rcases hsp : socket_spawn env .stopPost _ with s1 | ⟨s1, pid⟩
    · exact SockInv_enter_signal_final env _ _ _ (by decide)
        (WOpen_of_ports_eq ((spawn_err_eqs hsp).1) (WOpen_of_ports_eq rfl h1))
    · exact SockInv_set_state_of_ne _ _
        (WOpen_of_ports_eq ((spawn_ok_eqs hsp).1) (WOpen_of_ports_eq rfl h1))
        (by decide)
  · exact SockInv_enter_signal_final env _ _ _ (by decide) (WOpen_of_ports_eq rfl h1)

lemma SockInv_enter_signal (env : Env) (st : SocketState)
    (f : SocketResult) (s : Sock)
    (hst : st = .stopPreSigterm ∨ st = .stopPreSigkill ∨
           st = .finalSigterm ∨ st = .finalSigkill) (h : WOpen s) :
    SockInv (socket_enter_signal env st f s) := by
  have hnl : st ≠ SocketState.listening := by
    rcases hst with rfl | rfl | rfl | rfl <;> decide
  unfold socket_enter_signal
  by_cases hpre : st = SocketState.stopPreSigterm ∨ st = SocketState.stopPreSigkill
  · rw [if_pos hpre]
    exact SockInv_signal_core env st f s _ hnl h
      (fun f' s' h' => SockInv_enter_stop_post env f' s' h')
  · rw [if_neg hpre]
    exact SockInv_enter_signal_final env st f s hnl h

lemma SockInv_enter_stop_pre (env : Env) (f : SocketResult) (s : Sock)
    (h : WOpen s) : SockInv (socket_enter_stop_pre env f s) := by
  have h1 : WOpen (latchResult f s) := WOpen_of_ports_eq (latch_ports f s) h
  simp only [socket_enter_stop_pre]
  split
  · rcases hsp : socket_spawn env .stopPre _ with s1 | ⟨s1, pid⟩
    · exact SockInv_enter_stop_post env _ _
        (WOpen_of_ports_eq ((spawn_err_eqs hsp).1) (WOpen_of_ports_eq rfl h1))
    · exact SockInv_set_state_of_ne _ _
        (WOpen_of_ports_eq ((spawn_ok_eqs hsp).1) (WOpen_of_ports_eq rfl h1))
        (by decide)
  · exact SockInv_enter_stop_post env _ _ (WOpen_of_ports_eq rfl h1)

lemma watch_fds_ok_iff (env : Env) (s : Sock) (s1 : Sock) (h : WOpen s)
    (hok : socket_watch_fds env s = .ok s1) :
    ∀ p ∈ s1.ports, p.watched = p.fd.isSome := by
  unfold socket_watch_fds at hok
  split at hok
  · cases hok
    intro p hp
    have := watched_iff_map_watch s.ports h p hp
    by_cases hf : p.fd.isSome
    · rw [hf, this.mpr hf]
    · rw [Option.not_isSome_iff_eq_none] at hf
      cases hw : p.watched
      · simp [hf]
      · have h2 := this.mp hw
        rw [hf] at h2
        simp at h2
  · cases hok

lemma watch_fds_err_wopen (env : Env) (s : Sock) (s1 : Sock) (h : WOpen s)
    (herr : socket_watch_fds env s = .error s1) : WOpen s1 := by
  unfold socket_watch_fds at herr
  split at herr
  · cases herr
  · cases herr
    intro p hp hw
    unfold socket_unwatch_fds at hp
    rw [all_unwatched_map s.ports h p hp] at hw
    exact absurd hw (by simp)

lemma SockInv_enter_listening (env : Env) (s : Sock) (h : WOpen s) :
    SockInv (socket_enter_listening env s) := by
  unfold socket_enter_listening
  rcases hw : socket_watch_fds env s with s1 | s1
  · exact SockInv_enter_stop_pre env _ _ (watch_fds_err_wopen env s s1 h hw)
  · exact SockInv_set_state_listening s1 (watch_fds_ok_iff env s s1 h hw)

lemma SockInv_enter_start_post (env : Env) (s : Sock) (h : WOpen s) :
    SockInv (socket_enter_start_post env s) := by
  simp only [socket_enter_start_post]
  split
  · rcases hsp : socket_spawn env .startPost _ with s1 | ⟨s1, pid⟩
    · exact SockInv_enter_stop_pre env _ _
        (WOpen_of_ports_eq ((spawn_err_eqs hsp).1) (WOpen_of_ports_eq rfl h))
    · exact SockInv_set_state_of_ne _ _
        (WOpen_of_ports_eq ((spawn_ok_eqs hsp).1) (WOpen_of_ports_eq rfl h))
        (by decide)
  · exact SockInv_enter_listening env _ (WOpen_of_ports_eq rfl h)

/-- Projection of an `OpenOutcome` onto its port list. -/
def OpenOutcome.outPorts : OpenOutcome → List SocketPort
  | .ok ps => ps
  | .errReturn ps => ps
  | .errRollback ps => ps

lemma open_loop_mem (env : Env) :
    ∀ (l : List SocketPort) (know : Bool) (p : SocketPort),
      p ∈ (socket_open_fds_loop env know l).outPorts →
      p ∈ l ∨ ∃ p0 ∈ l, ∃ fd, p = { p0 with fd := some fd } := by
  intro l
  induction l with
  | nil =>
    intro know p hp
    simp [socket_open_fds_loop, OpenOutcome.outPorts] at hp
  | cons q rest ih =>
    intro know p hp
    unfold socket_open_fds_loop at hp
    by_cases hq : q.fd.isSome
    · rw [if_pos hq] at hp
      rcases hrest : socket_open_fds_loop env know rest with ps | ps | ps <;>
        rw [hrest] at hp <;>
        simp only [OpenOutcome.outPorts, List.mem_cons] at hp <;>
        rcases hp with rfl | hp
      · exact Or.inl (List.mem_cons_self _ _)
      · rcases ih know p (by rw [hrest]; exact hp) with h1 | ⟨p0, hp0, fd, rfl⟩
        · exact Or.inl (List.mem_cons_of_mem _ h1)
        · exact Or.inr ⟨p0, List.mem_cons_of_mem _ hp0, fd, rfl⟩
      · exact Or.inl (List.mem_cons_self _ _)
      · rcases ih know p (by rw [hrest]; exact hp) with h1 | ⟨p0, hp0, fd, rfl⟩
        · exact Or.inl (List.mem_cons_of_mem _ h1)
        · exact Or.inr ⟨p0, List.mem_cons_of_mem _ hp0, fd, rfl⟩
      · exact Or.inl (List.mem_cons_self _ _)
      · rcases ih know p (by rw [hrest]; exact hp) with h1 | ⟨p0, hp0, fd, rfl⟩
        · exact Or.inl (List.mem_cons_of_mem _ h1)
        · exact Or.inr ⟨p0, List.mem_cons_of_mem _ hp0, fd, rfl⟩
    · rw [if_neg hq] at hp
      split at hp
      · exact Or.inl hp
      · rcases hopen : env.openOutcome q.key with _ | fd0
        · rw [hopen] at hp
          exact Or.inl hp
        · rw [hopen] at hp
          rcases hrest : socket_open_fds_loop env (know ∨ q.key.isSocketKind) rest
            with ps | ps | ps <;>
            rw [hrest] at hp <;>
            simp only [OpenOutcome.outPorts, List.mem_cons] at hp <;>
            rcases hp with rfl | hp
          · exact Or.inr ⟨q, List.mem_cons_self _ _, fd0, rfl⟩
          · rcases ih _ p (by rw [hrest]; exact hp) with h1 | ⟨p0, hp0, fd, rfl⟩
            · exact Or.inl (List.mem_cons_of_mem _ h1)
            · exact Or.inr ⟨p0, List.mem_cons_of_mem _ hp0, fd, rfl⟩
          · exact Or.inr ⟨q, List.mem_cons_self _ _, fd0, rfl⟩
          · rcases ih _ p (by rw [hrest]; exact hp) with h1 | ⟨p0, hp0, fd, rfl⟩
            · exact Or.inl (List.mem_cons_of_mem _ h1)
            · exact Or.inr ⟨p0, List.mem_cons_of_mem _ hp0, fd, rfl⟩
          · exact Or.inr ⟨q, List.mem_cons_self _ _, fd0, rfl⟩
          · rcases ih _ p (by rw [hrest]; exact hp) with h1 | ⟨p0, hp0, fd, rfl⟩
            · exact Or.inl (List.mem_cons_of_mem _ h1)
            · exact Or.inr ⟨p0, List.mem_cons_of_mem _ hp0, fd, rfl⟩

lemma open_loop_wopen (env : Env) (l : List SocketPort) (know : Bool)
    (h : ∀ p ∈ l, p.watched = true → p.fd.isSome = true) :
    ∀ p ∈ (socket_open_fds_loop env know l).outPorts,
      p.watched = true → p.fd.isSome = true := by
  intro p hp hw
  rcases open_loop_mem env l know p hp with h1 | ⟨p0, hp0, fd, rfl⟩
  · exact h p h1 hw
  · simp

lemma WOpen_close_fds (s : Sock) (h : WOpen s) : WOpen (socket_close_fds s) := by
  intro p hp hw
  unfold socket_close_fds at hp
  simp only [List.mem_map] at hp
  obtain ⟨q, hq, rfl⟩ := hp
  by_cases hf : q.fd.isSome
  · rw [if_pos hf] at hw ⊢
    simp at hw
  · rw [if_neg hf] at hw ⊢
    exact h q hq hw

lemma open_fds_ok_wopen {env : Env} {s s1 : Sock} (h : WOpen s)
    (hok : socket_open_fds env s = .ok s1) : WOpen s1 := by
  unfold socket_open_fds at hok
  rcases hl : socket_open_fds_loop env false s.ports with ps | ps | ps <;>
    rw [hl] at hok
  · cases hok
    intro p hp hw
    exact open_loop_wopen env s.ports false h p (by rw [hl]; exact hp) hw
  · cases hok
  · cases hok

lemma open_fds_err_wopen {env : Env} {s s1 : Sock} (h : WOpen s)
    (herr : socket_open_fds env s = .error s1) : WOpen s1 := by
  unfold socket_open_fds at herr
  rcases hl : socket_open_fds_loop env false s.ports with ps | ps | ps <;>
    rw [hl] at herr
  · cases herr
  · cases herr
    intro p hp hw
    exact open_loop_wopen env s.ports false h p (by rw [hl]; exact hp) hw
  · cases herr
    refine WOpen_close_fds _ ?_
    intro q hq hwq
    exact open_loop_wopen env s.ports false h q (by rw [hl]; exact hq) hwq

lemma SockInv_chown_branch (env : Env) (s1 : Sock) (h1 : WOpen s1) :
    SockInv (socket_start_chown_branch env s1) := by
  simp only [socket_start_chown_branch]
  rcases hc : env.chownForkPid with _ | pid
  · exact SockInv_enter_stop_pre env _ _ (WOpen_of_ports_eq rfl h1)
  · exact SockInv_set_state_of_ne _ _ (WOpen_of_ports_eq rfl h1) (by decide)

lemma SockInv_enter_start_chown (env : Env) (s : Sock) (h : WOpen s) :
    SockInv (socket_enter_start_chown env s) := by
  unfold socket_enter_start_chown
  cases hof : socket_open_fds env s with
  | error s1 => exact SockInv_enter_stop_pre env _ _ (open_fds_err_wopen h hof)
  | ok s1 =>
    have h1 : WOpen s1 := open_fds_ok_wopen h hof
    show SockInv (if s1.hasUserOrGroup = true then socket_start_chown_branch env s1
                  else socket_enter_start_post env s1)
    by_cases hug : s1.hasUserOrGroup = true
    · rw [if_pos hug]
      exact SockInv_chown_branch env s1 h1
    · rw [if_neg hug]
      exact SockInv_enter_start_post env _ h1

lemma SockInv_enter_start_pre (env : Env) (s : Sock) (h : WOpen s) :
    SockInv (socket_enter_start_pre env s) := by
  simp only [socket_enter_start_pre]
  split
  · rcases hsp : socket_spawn env .startPre _ with s1 | ⟨s1, pid⟩
    · exact SockInv_enter_dead _ _
        (WOpen_of_ports_eq ((spawn_err_eqs hsp).1) (WOpen_of_ports_eq rfl h))
    · exact SockInv_set_state_of_ne _ _
        (WOpen_of_ports_eq ((spawn_ok_eqs hsp).1) (WOpen_of_ports_eq rfl h))
        (by decide)
  · exact SockInv_enter_start_chown env _ (WOpen_of_ports_eq rfl h)

lemma SockInv_of_all_closed (s : Sock)
    (h : ∀ p ∈ s.ports, p.fd = none ∧ p.watched = false) : SockInv s := by
  constructor
  · intro p hp hopen
    rw [(h p hp).1] at hopen
    simp at hopen
  · intro p hp
    simp [(h p hp).1, (h p hp).2]

lemma watch_fds_ok_eqs {env : Env} {t s2 : Sock}
    (hok : socket_watch_fds env t = .ok s2) :
    s2.state = t.state ∧ s2.result = t.result ∧
    s2.ports = t.ports.map (fun p => if p.fd.isSome then { p with watched := true } else p) := by
  unfold socket_watch_fds at hok
  split at hok
  · cases hok
    exact ⟨rfl, rfl, rfl⟩
  · cases hok

lemma close_then_watch_closed (s : Sock) (h : WOpen s) :
    ∀ p ∈ (socket_close_fds s).ports.map
        (fun p => if p.fd.isSome then { p with watched := true } else p),
      p.fd = none ∧ p.watched = false := by
  intro p hp
  simp only [List.mem_map] at hp
  obtain ⟨q, hq, rfl⟩ := hp
  have hcq : q.fd = none ∧ q.watched = false := by
    unfold socket_close_fds at hq
    exact all_closed_map s.ports h q hq
  rw [if_neg (by rw [hcq.1]; simp)]
  exact hcq

lemma instantiate_eqs {env : Env} {s s1 : Sock}
    (h : socket_instantiate_service env s = .ok s1 ∨
         socket_instantiate_service env s = .error s1) :
    s1.ports = s.ports ∧ s1.state = s.state ∧ s1.result = s.result ∧
    s1.nAccepted = s.nAccepted ∧ s1.nConnections = s.nConnections := by
  unfold socket_instantiate_service at h
  rcases h with h | h <;> split at h
  · cases h
    exact ⟨rfl, rfl, rfl, rfl, rfl⟩
  · split at h
    · cases h
      exact ⟨rfl, rfl, rfl, rfl, rfl⟩
    · cases h
  · cases h
  · split at h
    · cases h
    · cases h
      exact ⟨rfl, rfl, rfl, rfl, rfl⟩

lemma SockInv_running_flush (env : Env) (s : Sock) (h : SockInv s) :
    SockInv (socket_running_flush env s) := by
  unfold socket_running_flush
  cases hw : socket_watch_fds env (socket_close_fds s) with
  | error s2 =>
    exact SockInv_enter_stop_pre env _ _
      (watch_fds_err_wopen env _ s2 (WOpen_close_fds s h.wOpen) hw)
  | ok s2 =>
    obtain (⟨hst, _, hports⟩) := watch_fds_ok_eqs hw
    refine SockInv_of_all_closed s2 ?_
    rw [hports]
    exact close_then_watch_closed s h.wOpen

lemma SockInv_running_trigger (env : Env) (s : Sock) (h : SockInv s) :
    SockInv (socket_running_trigger env s) := by
  unfold socket_running_trigger
  split
  · exact SockInv_set_state_of_ne _ _ h.wOpen (by decide)
  · split
    · exact SockInv_enter_stop_pre env _ _ h.wOpen
    · split
      · exact SockInv_enter_stop_pre env _ _ h.wOpen
      · exact SockInv_set_state_of_ne _ _ h.wOpen (by decide)

lemma SockInv_running_handoff (env : Env) (s1 : Sock) (h1 : SockInv s1) :
    SockInv (socket_running_handoff env s1).1 := by
  simp only [socket_running_handoff]
  split
  · exact SockInv_enter_stop_pre env _ _ h1.wOpen
  · split
    · exact SockInv_enter_stop_pre env _ _ h1.wOpen
    · split
      · exact SockInv_enter_stop_pre env _ _ h1.wOpen
      · split
        · exact SockInv_enter_stop_pre env _ _ (WOpen_of_ports_eq rfl h1.wOpen)
        · split
          · exact SockInv_enter_stop_pre env _ _ (WOpen_of_ports_eq rfl h1.wOpen)
          · exact SockInv_of_eqs rfl rfl h1

lemma SockInv_running_accept (env : Env) (s : Sock) (h : SockInv s) :
    SockInv (socket_running_accept env s).1 := by
  unfold socket_running_accept
  split
  · exact h
  · cases hinst : socket_instantiate_service env s with
    | error s1 =>
      exact SockInv_enter_stop_pre env _ _
        (WOpen_of_ports_eq (instantiate_eqs (Or.inr hinst)).1 h.wOpen)
    | ok s1 =>
      obtain (⟨hpo, hstx, _, _, _⟩) := instantiate_eqs (Or.inl hinst)
      have h1 : SockInv s1 := SockInv_of_eqs hpo hstx h
      cases hil : env.instanceLookup with
      | errEnotconn => exact h1
      | errOther => exact SockInv_enter_stop_pre env _ _ h1.wOpen
      | ok => exact SockInv_running_handoff env s1 h1

lemma SockInv_enter_running (env : Env) (cfd : Option Nat) (s : Sock)
    (h : SockInv s) : SockInv (socket_enter_running env cfd s).1 := by
  unfold socket_enter_running
  split
  · cases cfd with
    | some fd => exact h
    | none => exact SockInv_running_flush env s h
  · cases cfd with
    | none => exact SockInv_running_trigger env s h
    | some fd => exact SockInv_running_accept env s h

lemma SockInv_run_next (env : Env) (s : Sock) (h : SockInv s) :
    SockInv (socket_run_next env s) := by
  simp only [socket_run_next]
  split
  · exact SockInv_of_eqs rfl rfl h
  · split
    · exact SockInv_enter_stop_pre env _ _ (WOpen_of_ports_eq rfl h.wOpen)
    · split
      · exact SockInv_enter_dead _ _ (WOpen_of_ports_eq rfl h.wOpen)
      · exact SockInv_enter_signal env _ _ _ (by decide)
          (WOpen_of_ports_eq rfl h.wOpen)

lemma SockInv_sigchld_dispatch (env : Env) (f : SocketResult) (s : Sock)
    (h : SockInv s) : SockInv (socket_sigchld_dispatch env f s) := by
  unfold socket_sigchld_dispatch
  cases hst : s.state with
  | startPre =>
    show SockInv (if f = SocketResult.success then socket_enter_start_chown env s
                  else socket_enter_signal env .finalSigterm f s)
    split
    · exact SockInv_enter_start_chown env s h.wOpen
    · exact SockInv_enter_signal env _ _ _ (by decide) h.wOpen
  | startChown =>
    show SockInv (if f = SocketResult.success then socket_enter_start_post env s
                  else socket_enter_stop_pre env f s)
    split
    · exact SockInv_enter_start_post env s h.wOpen
    · exact SockInv_enter_stop_pre env _ _ h.wOpen
  | startPost =>
    show SockInv (if f = SocketResult.success then socket_enter_listening env s
                  else socket_enter_stop_pre env f s)
    split
    · exact SockInv_enter_listening env s h.wOpen
    · exact SockInv_enter_stop_pre env _ _ h.wOpen
  | stopPre =>
    exact SockInv_enter_stop_post env _ _ h.wOpen
  | stopPreSigterm =>
    exact SockInv_enter_stop_post env _ _ h.wOpen
  | stopPreSigkill =>
    exact SockInv_enter_stop_post env _ _ h.wOpen
  | stopPost =>
    exact SockInv_enter_dead _ _ h.wOpen
  | finalSigterm =>
    exact SockInv_enter_dead _ _ h.wOpen
  | finalSigkill =>
    exact SockInv_enter_dead _ _ h.wOpen
  | dead =>
    exact h
  | listening =>
    exact h
  | running =>
    exact h
  | failed =>
    exact h

lemma SockInv_sigchld (env : Env) (pid : Nat) (k : ExitKind) (s : Sock)
    (h : SockInv s) : SockInv (socket_sigchld_event env pid k s) := by
  simp only [socket_sigchld_event]
  split
  · exact h
  · split
    · exact SockInv_run_next env _
        (SockInv_of_eqs (by rw [latch_ports]) (by rw [latch_state]) h)
    · exact SockInv_sigchld_dispatch env _ _
        (SockInv_of_eqs (by rw [latch_ports]) (by rw [latch_state]) h)

lemma SockInv_timer (env : Env) (s : Sock) (h : SockInv s) :
    SockInv (socket_timer_event env s) := by
  unfold socket_timer_event
  cases hst : s.state with
  | startPre =>
    exact SockInv_enter_signal env _ _ _ (by decide) h.wOpen
  | startChown =>
    exact SockInv_enter_stop_pre env _ _ h.wOpen
  | startPost =>
    exact SockInv_enter_stop_pre env _ _ h.wOpen
  | stopPre =>
    exact SockInv_enter_signal env _ _ _ (by decide) h.wOpen
  | stopPreSigterm =>
    show SockInv (if s.sendSigkill = true then
        socket_enter_signal env .stopPreSigkill .failureTimeout s
      else socket_enter_stop_post env .failureTimeout s)
    split
    · exact SockInv_enter_signal env _ _ _ (by decide) h.wOpen
    · exact SockInv_enter_stop_post env _ _ h.wOpen
  | stopPreSigkill =>
    exact SockInv_enter_stop_post env _ _ h.wOpen
  | stopPost =>
    exact SockInv_enter_signal env _ _ _ (by decide) h.wOpen
  | finalSigterm =>
    show SockInv (if s.sendSigkill = true then
        socket_enter_signal env .finalSigkill .failureTimeout s
      else socket_enter_dead .failureTimeout s)
    split
    · exact SockInv_enter_signal env _ _ _ (by decide) h.wOpen
    · exact SockInv_enter_dead _ _ h.wOpen
  | finalSigkill =>
    exact SockInv_enter_dead _ _ h.wOpen
  | dead =>
    exact h
  | listening =>
    exact h
  | running =>
    exact h
  | failed =>
    exact h

lemma SockInv_start (env : Env) (s : Sock) (h : SockInv s) :
    SockInv (socket_start env s).2 := by
  unfold socket_start
  split
  · exact h
  · split
    · exact h
    · split
      · exact h
      · split
        · exact h
        · split
          · exact SockInv_enter_start_pre env _ (WOpen_of_ports_eq rfl h.wOpen)
          · exact h

lemma SockInv_stop (env : Env) (s : Sock) (h : SockInv s) :
    SockInv (socket_stop env s).2 := by
  unfold socket_stop
  split
  · exact h
  · split
    · exact SockInv_enter_signal env _ _ _ (by decide) h.wOpen
    · split
      · exact SockInv_enter_stop_pre env _ _ h.wOpen
      · exact h

lemma SockInv_fd_event (env : Env) (goodEvent : Bool) (cfd : Option Nat)
    (s : Sock) (h : SockInv s) :
    SockInv (socket_fd_event env goodEvent cfd s) := by
  unfold socket_fd_event
  split
  · exact h
  · split
    · exact SockInv_enter_stop_pre env _ _ h.wOpen
    · exact SockInv_enter_running env cfd s h

lemma SockInv_notify_service_dead (env : Env) (fp : Bool) (s : Sock)
    (h : SockInv s) : SockInv (socket_notify_service_dead env fp s) := by
  unfold socket_notify_service_dead
  split
  · split
    · exact SockInv_enter_stop_pre env _ _ h.wOpen
    · exact SockInv_enter_listening env _ h.wOpen
  · exact h

lemma SockInv_connection_unref (s : Sock) (h : SockInv s) :
    SockInv (socket_connection_unref s) := by
  unfold socket_connection_unref
  split
  · exact SockInv_of_eqs rfl rfl h
  · exact h

lemma SockInv_reset_failed (s : Sock) (h : SockInv s) :
    SockInv (socket_reset_failed s) := by
  simp only [socket_reset_failed]
  split
  · exact SockInv_of_eqs rfl (set_state_state _ _)
      (SockInv_set_state_of_ne _ _ h.wOpen (by decide))
  · exact SockInv_of_eqs rfl rfl h

/-! ## Result monotonicity: transitions never latch Success over a failure -/

lemma latch_result (f : SocketResult) (s : Sock) :
    (latchResult f s).result = if f = .success then s.result else f := by
  by_cases hf : f = SocketResult.success <;> simp [latchResult, hf]

lemma latch_result_success {f : SocketResult} {s : Sock}
    (h : (latchResult f s).result = .success) :
    s.result = .success ∧ f = .success := by
  rw [latch_result] at h
  by_cases hf : f = SocketResult.success
  · rw [if_pos hf] at h
    exact ⟨h, hf⟩
  · rw [if_neg hf] at h
    exact absurd h hf

lemma resMono_enter_dead {f : SocketResult} {s : Sock}
    (h : (socket_enter_dead f s).result = .success) : s.result = .success := by
  simp only [socket_enter_dead] at h
  rw [set_state_result] at h
  exact (latch_result_success h).1

lemma resMono_signal_core {env : Env} {st : SocketState} {f : SocketResult}
    {s : Sock} {cont : SocketResult → Sock → Sock}
    (hcont : ∀ f' s', (cont f' s').result = .success → s'.result = .success)
    (h : (socket_enter_signal_core env st f s cont).result = .success) :
    s.result = .success := by
  simp only [socket_enter_signal_core] at h
  rcases hk : env.killOutcome st with _ | _ | _ <;> rw [hk] at h
  · exact (latch_result_success (hcont _ _ h)).1
  · exact (latch_result_success (hcont _ _ h)).1
  · revert h
    show (if env.watchTimerOk = true then
        socket_set_state st { latchResult f s with timerArmed := true }
      else cont .failureResources (latchResult f s)).result = _ → _
    intro h
    split at h
    · rw [set_state_result] at h
      exact (latch_result_success h).1
    · exact (latch_result_success (hcont _ _ h)).1

lemma resMono_enter_signal_final {env : Env} {st : SocketState}
    {f : SocketResult} {s : Sock}
    (h : (socket_enter_signal_final env st f s).result = .success) :
    s.result = .success :=
  resMono_signal_core (fun f' s' h' => resMono_enter_dead h') h

lemma resMono_enter_stop_post {env : Env} {f : SocketResult} {s : Sock}
    (h : (socket_enter_stop_post env f s).result = .success) :
    s.result = .success := by
  simp only [socket_enter_stop_post] at h
  split at h
  · rcases hsp : socket_spawn env .stopPost _ with s1 | ⟨s1, pid⟩ <;> rw [hsp] at h
    · have h1 := resMono_enter_signal_final h
      rw [(spawn_err_eqs hsp).2.2] at h1
      exact (latch_result_success h1).1
    · rw [set_state_result] at h
      have h1 : s1.result = SocketResult.success := h
      rw [(spawn_ok_eqs hsp).2.2] at h1
      exact (latch_result_success h1).1
  · have h1 := resMono_enter_signal_final h
    exact (latch_result_success h1).1

lemma resMono_enter_signal {env : Env} {st : SocketState}
    {f : SocketResult} {s : Sock}
    (h : (socket_enter_signal env st f s).result = .success) :
    s.result = .success := by
  unfold socket_enter_signal at h
  by_cases hpre : st = SocketState.stopPreSigterm ∨ st = SocketState.stopPreSigkill
  · rw [if_pos hpre] at h
    exact resMono_signal_core (fun f' s' h' => resMono_enter_stop_post h') h
  · rw [if_neg hpre] at h
    exact resMono_enter_signal_final h

lemma resMono_enter_stop_pre {env : Env} {f : SocketResult} {s : Sock}
    (h : (socket_enter_stop_pre env f s).result = .success) :
    s.result = .success := by
  simp only [socket_enter_stop_pre] at h
  split at h
  · rcases hsp : socket_spawn env .stopPre _ with s1 | ⟨s1, pid⟩ <;> rw [hsp] at h
    · have h1 := resMono_enter_stop_post h
      rw [(spawn_err_eqs hsp).2.2] at h1
      exact (latch_result_success h1).1
    · rw [set_state_result] at h
      have h1 : s1.result = SocketResult.success := h
      rw [(spawn_ok_eqs hsp).2.2] at h1
      exact (latch_result_success h1).1
  · have h1 := resMono_enter_stop_post h
    have h2 : (latchResult f s).result = SocketResult.success := h1
    exact (latch_result_success h2).1

lemma watch_fds_err_result {env : Env} {s s1 : Sock}
    (herr : socket_watch_fds env s = .error s1) : s1.result = s.result := by
  unfold socket_watch_fds at herr
  split at herr
  · cases herr
  · cases herr
    rfl

lemma resMono_enter_listening {env : Env} {s : Sock}
    (h : (socket_enter_listening env s).result = .success) :
    s.result = .success := by
  unfold socket_enter_listening at h
  cases hw : socket_watch_fds env s with
  | error s1 =>
    rw [hw] at h
    have h1 := resMono_enter_stop_pre h
    rw [watch_fds_err_result hw] at h1
    exact h1
  | ok s1 =>
    rw [hw] at h
    rw [set_state_result] at h
    rw [(watch_fds_ok_eqs hw).2.1] at h
    exact h

lemma resMono_enter_start_post {env : Env} {s : Sock}
    (h : (socket_enter_start_post env s).result = .success) :
    s.result = .success := by
  simp only [socket_enter_start_post] at h
  split at h
  · rcases hsp : socket_spawn env .startPost _ with s1 | ⟨s1, pid⟩ <;> rw [hsp] at h
    · have h1 := resMono_enter_stop_pre h
      rw [(spawn_err_eqs hsp).2.2] at h1
      exact h1
    · rw [set_state_result] at h
      have h1 : s1.result = SocketResult.success := h
      rw [(spawn_ok_eqs hsp).2.2] at h1
      exact h1
  · have h1 := resMono_enter_listening h
    exact h1

lemma open_fds_result {env : Env} {s s1 : Sock}
    (h : socket_open_fds env s = .ok s1 ∨ socket_open_fds env s = .error s1) :
    s1.result = s.result := by
  rcases h with h | h
  · unfold socket_open_fds at h
    rcases hl : socket_open_fds_loop env false s.ports with ps | ps | ps <;> rw [hl] at h
    · cases h
      rfl
    · cases h
    · cases h
  · unfold socket_open_fds at h
    rcases hl : socket_open_fds_loop env false s.ports with ps | ps | ps <;> rw [hl] at h
    · cases h
    · cases h
      rfl
    · cases h
      rfl

lemma resMono_chown_branch {env : Env} {s1 : Sock}
    (h : (socket_start_chown_branch env s1).result = .success) :
    s1.result = .success := by
  simp only [socket_start_chown_branch] at h
  rcases hc : env.chownForkPid with _ | pid <;> rw [hc] at h
  · have h1 := resMono_enter_stop_pre h
    exact h1
  · rw [set_state_result] at h
    exact h

lemma resMono_enter_start_chown {env : Env} {s : Sock}
    (h : (socket_enter_start_chown env s).result = .success) :
    s.result = .success := by
  unfold socket_enter_start_chown at h
  cases hof : socket_open_fds env s with
  | error s1 =>
    rw [hof] at h
    have h1 := resMono_enter_stop_pre h
    rw [open_fds_result (Or.inr hof)] at h1
    exact h1
  | ok s1 =>
    rw [hof] at h
    have hres := open_fds_result (Or.inl hof)
    revert h
    show (if s1.hasUserOrGroup = true then socket_start_chown_branch env s1
          else socket_enter_start_post env s1).result = _ → _
    intro h
    split at h
    · rw [← hres]
      exact resMono_chown_branch h
    · rw [← hres]
      exact resMono_enter_start_post h

lemma resMono_enter_start_pre {env : Env} {s : Sock}
    (h : (socket_enter_start_pre env s).result = .success) :
    s.result = .success := by
  simp only [socket_enter_start_pre] at h
  split at h
  · rcases hsp : socket_spawn env .startPre _ with s1 | ⟨s1, pid⟩ <;> rw [hsp] at h
    · have h1 := resMono_enter_dead h
      rw [(spawn_err_eqs hsp).2.2] at h1
      exact h1
    · rw [set_state_result] at h
      have h1 : s1.result = SocketResult.success := h
      rw [(spawn_ok_eqs hsp).2.2] at h1
      exact h1
  · have h1 := resMono_enter_start_chown h
    exact h1

lemma resMono_running_flush {env : Env} {s : Sock}
    (h : (socket_running_flush env s).result = .success) :
    s.result = .success := by
  unfold socket_running_flush at h
  cases hw : socket_watch_fds env (socket_close_fds s) with
  | error s2 =>
    rw [hw] at h
    have h1 := resMono_enter_stop_pre h
    rw [watch_fds_err_result hw] at h1
    exact h1
  | ok s2 =>
    rw [hw] at h
    rw [(watch_fds_ok_eqs hw).2.1] at h
    exact h

lemma resMono_running_trigger {env : Env} {s : Sock}
    (h : (socket_running_trigger env s).result = .success) :
    s.result = .success := by
  unfold socket_running_trigger at h
  split at h
  · rw [set_state_result] at h
    exact h
  · split at h
    · exact resMono_enter_stop_pre h
    · split at h
      · exact resMono_enter_stop_pre h
      · rw [set_state_result] at h
        exact h

lemma resMono_running_handoff {env : Env} {s1 : Sock}
    (h : (socket_running_handoff env s1).1.result = .success) :
    s1.result = .success := by
  simp only [socket_running_handoff] at h
  split at h
  · exact resMono_enter_stop_pre h
  · split at h
    · exact resMono_enter_stop_pre h
    · split at h
      · exact resMono_enter_stop_pre h
      · split at h
        · have h1 := resMono_enter_stop_pre h
          exact h1
        · split at h
          · have h1 := resMono_enter_stop_pre h
            exact h1
          · exact h

lemma resMono_running_accept {env : Env} {s : Sock}
    (h : (socket_running_accept env s).1.result = .success) :
    s.result = .success := by
  unfold socket_running_accept at h
  split at h
  · exact h
  · cases hinst : socket_instantiate_service env s with
    | error s1 =>
      rw [hinst] at h
      have h1 := resMono_enter_stop_pre h
      rw [(instantiate_eqs (Or.inr hinst)).2.2.1] at h1
      exact h1
    | ok s1 =>
      rw [hinst] at h
      have hres := (instantiate_eqs (Or.inl hinst)).2.2.1
      cases hil : env.instanceLookup with
      | errEnotconn =>
        rw [hil] at h
        rw [← hres]
        exact h
      | errOther =>
        rw [hil] at h
        have h1 := resMono_enter_stop_pre h
        rw [hres] at h1
        exact h1
      | ok =>
        rw [hil] at h
        rw [← hres]
        exact resMono_running_handoff h

lemma resMono_enter_running {env : Env} {cfd : Option Nat} {s : Sock}
    (h : (socket_enter_running env cfd s).1.result = .success) :
    s.result = .success := by
  unfold socket_enter_running at h
  split at h
  · cases cfd with
    | some fd => exact h
    | none => exact resMono_running_flush h
  · cases cfd with
    | none => exact resMono_running_trigger h
    | some fd => exact resMono_running_accept h

lemma resMono_run_next {env : Env} {s : Sock}
    (h : (socket_run_next env s).result = .success) :
    s.result = .success := by
  simp only [socket_run_next] at h
  split at h
  · exact h
  · split at h
    · have h1 := resMono_enter_stop_pre h
      exact h1
    · split at h
      · have h1 := resMono_enter_dead h
        exact h1
      · have h1 := resMono_enter_signal h
        exact h1

lemma resMono_sigchld_dispatch {env : Env} {f : SocketResult} {s : Sock}
    (h : (socket_sigchld_dispatch env f s).result = .success) :
    s.result = .success := by
  unfold socket_sigchld_dispatch at h
  cases hst : s.state <;> rw [hst] at h
  case startPre =>
    revert h
    show (if f = SocketResult.success then socket_enter_start_chown env s
          else socket_enter_signal env .finalSigterm f s).result = _ → _
    intro h
    split at h
    · exact resMono_enter_start_chown h
    · exact resMono_enter_signal h
  case startChown =>
    revert h
    show (if f = SocketResult.success then socket_enter_start_post env s
          else socket_enter_stop_pre env f s).result = _ → _
    intro h
    split at h
    · exact resMono_enter_start_post h
    · exact resMono_enter_stop_pre h
  case startPost =>
    revert h
    show (if f = SocketResult.success then socket_enter_listening env s
          else socket_enter_stop_pre env f s).result = _ → _
    intro h
    split at h
    · exact resMono_enter_listening h
    · exact resMono_enter_stop_pre h
  case stopPre => exact resMono_enter_stop_post h
  case stopPreSigterm => exact resMono_enter_stop_post h
  case stopPreSigkill => exact resMono_enter_stop_post h
  case stopPost => exact resMono_enter_dead h
  case finalSigterm => exact resMono_enter_dead h
  case finalSigkill => exact resMono_enter_dead h
  case dead => exact h
  case listening => exact h
  case running => exact h
  case failed => exact h

lemma resMono_sigchld {env : Env} {pid : Nat} {k : ExitKind} {s : Sock}
    (h : (socket_sigchld_event env pid k s).result = .success) :
    s.result = .success := by
  simp only [socket_sigchld_event] at h
  split at h
  · exact h
  · split at h
    · have h1 := resMono_run_next h
      have h2 : (latchResult _ { s with controlPid := 0 }).result = SocketResult.success := h1
      exact (latch_result_success h2).1
    · have h1 := resMono_sigchld_dispatch h
      have h2 : (latchResult _ { s with controlPid := 0 }).result = SocketResult.success := h1
      exact (latch_result_success h2).1

lemma resMono_timer {env : Env} {s : Sock}
    (h : (socket_timer_event env s).result = .success) :
    s.result = .success := by
  unfold socket_timer_event at h
  cases hst : s.state <;> rw [hst] at h
  case startPre => exact resMono_enter_signal h
  case startChown => exact resMono_enter_stop_pre h
  case startPost => exact resMono_enter_stop_pre h
  case stopPre => exact resMono_enter_signal h
  case stopPreSigterm =>
    revert h
    show (if s.sendSigkill = true then
        socket_enter_signal env .stopPreSigkill .failureTimeout s
      else socket_enter_stop_post env .failureTimeout s).result = _ → _
    intro h
    split at h
    · exact resMono_enter_signal h
    · exact resMono_enter_stop_post h
  case stopPreSigkill => exact resMono_enter_stop_post h
  case stopPost => exact resMono_enter_signal h
  case finalSigterm =>
    revert h
    show (if s.sendSigkill = true then
        socket_enter_signal env .finalSigkill .failureTimeout s
      else socket_enter_dead .failureTimeout s).result = _ → _
    intro h
    split at h
    · exact resMono_enter_signal h
    · exact resMono_enter_dead h
  case finalSigkill => exact resMono_enter_dead h
  case dead => exact h
  case listening => exact h
  case running => exact h
  case failed => exact h

lemma resMono_stop {env : Env} {s : Sock}
    (h : (socket_stop env s).2.result = .success) : s.result = .success := by
  unfold socket_stop at h
  split at h
  · exact h
  · split at h
    · exact resMono_enter_signal h
    · split at h
      · exact resMono_enter_stop_pre h
      · exact h

lemma resMono_fd_event {env : Env} {goodEvent : Bool} {cfd : Option Nat} {s : Sock}
    (h : (socket_fd_event env goodEvent cfd s).result = .success) :
    s.result = .success := by
  unfold socket_fd_event at h
  split at h
  · exact h
  · split at h
    · exact resMono_enter_stop_pre h
    · exact resMono_enter_running h

lemma resMono_notify_service_dead {env : Env} {fp : Bool} {s : Sock}
    (h : (socket_notify_service_dead env fp s).result = .success) :
    s.result = .success := by
  unfold socket_notify_service_dead at h
  split at h
  · split at h
    · exact resMono_enter_stop_pre h
    · exact resMono_enter_listening h
  · exact h

lemma resMono_connection_unref {s : Sock}
    (h : (socket_connection_unref s).result = .success) : s.result = .success := by
  unfold socket_connection_unref at h
  split at h
  · exact h
  · exact h

/-! ## Progress of the timeout dispatch -/

/-- Distance from the terminal states along the stop progression. -/
def stateRank : SocketState → Nat
  | .dead => 0
  | .failed => 0
  | .finalSigkill => 1
  | .finalSigterm => 2
  | .stopPost => 3
  | .stopPreSigkill => 4
  | .stopPreSigterm => 5
  | .stopPre => 6
  | .startPre => 7
  | .startChown => 7
  | .startPost => 7
  | .listening => 8
  | .running => 8

lemma rank_ite_le {c : Prop} [Decidable c] {a b : Sock} {n : Nat}
    (ha : stateRank a.state ≤ n) (hb : stateRank b.state ≤ n) :
    stateRank (if c then a else b).state ≤ n := by
  split
  · exact ha
  · exact hb

lemma rank_enter_dead (f : SocketResult) (s : Sock) :
    stateRank (socket_enter_dead f s).state = 0 := by
  simp only [socket_enter_dead]
  rw [set_state_state]
  split <;> rfl

lemma rank_signal_core (env : Env) (st : SocketState) (f : SocketResult)
    (s : Sock) (cont : SocketResult → Sock → Sock) (n : Nat)
    (hcont : ∀ f' s', stateRank (cont f' s').state ≤ n) :
    stateRank (socket_enter_signal_core env st f s cont).state ≤
      max n (stateRank st) := by
  simp only [socket_enter_signal_core]
  rcases env.killOutcome st with _ | _ | _
  · exact le_trans (hcont _ _) (le_max_left _ _)
  · exact le_trans (hcont _ _) (le_max_left _ _)
  · show stateRank (if env.watchTimerOk = true then
        socket_set_state st { latchResult f s with timerArmed := true }
      else cont .failureResources (latchResult f s)).state ≤ _
    split
    · rw [set_state_state]
      exact le_max_right _ _
    · exact le_trans (hcont _ _) (le_max_left _ _)

lemma rank_signal_final (env : Env) (st : SocketState) (f : SocketResult)
    (s : Sock) : stateRank (socket_enter_signal_final env st f s).state ≤
      stateRank st := by
  have h := rank_signal_core env st f s socket_enter_dead 0
    (fun f' s' => by rw [rank_enter_dead])
  simpa using h

lemma rank_stop_post (env : Env) (f : SocketResult) (s : Sock) :
    stateRank (socket_enter_stop_post env f s).state ≤ 3 := by
  simp only [socket_enter_stop_post]
  split
  · rcases hsp : socket_spawn env .stopPost _ with s1 | ⟨s1, pid⟩
    · exact le_trans (rank_signal_final env _ _ _) (by decide)
    · rw [set_state_state]
      decide
  · exact le_trans (rank_signal_final env _ _ _) (by decide)

lemma rank_signal (env : Env) (st : SocketState) (f : SocketResult) (s : Sock)
    (hst : st = .stopPreSigterm ∨ st = .stopPreSigkill ∨
           st = .finalSigterm ∨ st = .finalSigkill) :
    stateRank (socket_enter_signal env st f s).state ≤ stateRank st := by
  unfold socket_enter_signal
  by_cases hpre : st = SocketState.stopPreSigterm ∨ st = SocketState.stopPreSigkill
  · rw [if_pos hpre]
    have h3 : 3 ≤ stateRank st := by
      rcases hpre with rfl | rfl <;> decide
    have h := rank_signal_core env st f s (socket_enter_stop_post env) 3
      (fun f' s' => rank_stop_post env f' s')
    exact le_trans h (by rw [Nat.max_le]; exact ⟨h3, le_refl _⟩)
  · rw [if_neg hpre]
    exact rank_signal_final env st f s

lemma rank_stop_pre (env : Env) (f : SocketResult) (s : Sock) :
    stateRank (socket_enter_stop_pre env f s).state ≤ 6 := by
  simp only [socket_enter_stop_pre]
  split
  · rcases hsp : socket_spawn env .stopPre _ with s1 | ⟨s1, pid⟩
    · exact le_trans (rank_stop_post env _ _) (by decide)
    · rw [set_state_state]
      decide
  · exact le_trans (rank_stop_post env _ _) (by decide)

/-! ## Serialization roundtrip -/

lemma deserialize_append (l1 l2 : List SerLine) (fds : List Nat) (s : Sock) :
    socket_deserialize (l1 ++ l2) fds s =
      socket_deserialize l2 (socket_deserialize l1 fds s).2
        (socket_deserialize l1 fds s).1 := by
  induction l1 generalizing fds s with
  | nil => simp [socket_deserialize]
  | cons line ls ih =>
    simp only [List.cons_append, socket_deserialize]
    exact ih _ _

/-- The ports/fd-set part of feeding lines to the deserializer, as a
pure list recursion (scalar lines have no port effect). -/
def portsFold : List SerLine → List Nat → List SocketPort →
    List SocketPort × List Nat
  | [], fds, u => (u, fds)
  | line :: ls, fds, u =>
    match lineFd line with
    | some fd =>
      if fds.contains fd then
        portsFold ls (fds.erase fd) (transplantFd line fd u)
      else portsFold ls fds u
    | none => portsFold ls fds u

lemma item_ports_none {fds : List Nat} {line : SerLine} {s : Sock}
    (h : lineFd line = none) :
    (socket_deserialize_item fds line s).1.ports = s.ports ∧
    (socket_deserialize_item fds line s).2 = fds := by
  cases line with
  | stateLine v => exact ⟨rfl, rfl⟩
  | resultLine v =>
    refine ⟨?_, rfl⟩
    simp only [socket_deserialize_item]
    split <;> rfl
  | nAcceptedLine v => exact ⟨rfl, rfl⟩
  | controlPidLine v => exact ⟨rfl, rfl⟩
  | controlCommandLine v => exact ⟨rfl, rfl⟩
  | fifoLine fd path => simp [lineFd] at h
  | specialLine fd path => simp [lineFd] at h
  | mqueueLine fd path => simp [lineFd] at h
  | socketLine fd st a => simp [lineFd] at h
  | netlinkLine fd a => simp [lineFd] at h

lemma item_ports_some_in {fds : List Nat} {line : SerLine} {fd : Nat} {s : Sock}
    (h : lineFd line = some fd) (hc : fd ∈ fds) :
    (socket_deserialize_item fds line s).1.ports = transplantFd line fd s.ports ∧
    (socket_deserialize_item fds line s).2 = fds.erase fd := by
  cases line <;> simp [lineFd] at h
  all_goals subst h
  all_goals simp [socket_deserialize_item, lineFd, hc]

lemma item_ports_some_out {fds : List Nat} {line : SerLine} {fd : Nat} {s : Sock}
    (h : lineFd line = some fd) (hc : fd ∉ fds) :
    (socket_deserialize_item fds line s).1.ports = s.ports ∧
    (socket_deserialize_item fds line s).2 = fds := by
  cases line <;> simp [lineFd] at h
  all_goals subst h
  all_goals simp [socket_deserialize_item, lineFd, hc]

lemma deserialize_item_scalars {fds : List Nat} {line : SerLine} {s : Sock}
    (h : lineFd line ≠ none) :
    (socket_deserialize_item fds line s).1.deserializedState = s.deserializedState ∧
    (socket_deserialize_item fds line s).1.result = s.result ∧
    (socket_deserialize_item fds line s).1.nAccepted = s.nAccepted ∧
    (socket_deserialize_item fds line s).1.controlPid = s.controlPid ∧
    (socket_deserialize_item fds line s).1.controlCommandId = s.controlCommandId := by
  cases line with
  | stateLine v => exact absurd rfl h
  | resultLine v => exact absurd rfl h
  | nAcceptedLine v => exact absurd rfl h
  | controlPidLine v => exact absurd rfl h
  | controlCommandLine v => exact absurd rfl h
  | fifoLine fd path =>
    by_cases hc : fd ∈ fds <;> simp [socket_deserialize_item, lineFd, hc]
  | specialLine fd path =>
    by_cases hc : fd ∈ fds <;> simp [socket_deserialize_item, lineFd, hc]
  | mqueueLine fd path =>
    by_cases hc : fd ∈ fds <;> simp [socket_deserialize_item, lineFd, hc]
  | socketLine fd st a =>
    by_cases hc : fd ∈ fds <;> simp [socket_deserialize_item, lineFd, hc]
  | netlinkLine fd a =>
    by_cases hc : fd ∈ fds <;> simp [socket_deserialize_item, lineFd, hc]

lemma portsFold_cons_none {line : SerLine} {ls : List SerLine} {fds : List Nat}
    {u : List SocketPort} (h : lineFd line = none) :
    portsFold (line :: ls) fds u = portsFold ls fds u := by
  simp [portsFold, h]

lemma portsFold_cons_some {line : SerLine} {ls : List SerLine} {fds : List Nat}
    {u : List SocketPort} {fd : Nat} (h : lineFd line = some fd)
    (hc : fd ∈ fds) :
    portsFold (line :: ls) fds u =
      portsFold ls (fds.erase fd) (transplantFd line fd u) := by
  simp [portsFold, h, hc]

lemma portsFold_cons_some_out {line : SerLine} {ls : List SerLine} {fds : List Nat}
    {u : List SocketPort} {fd : Nat} (h : lineFd line = some fd)
    (hc : fd ∉ fds) :
    portsFold (line :: ls) fds u = portsFold ls fds u := by
  simp [portsFold, h, hc]

lemma deserialize_ports_eq (lines : List SerLine) :
    ∀ (fds : List Nat) (t : Sock),
    ((socket_deserialize lines fds t).1.ports, (socket_deserialize lines fds t).2) =
      portsFold lines fds t.ports := by
  induction lines with
  | nil =>
    intro fds t
    simp [socket_deserialize, portsFold]
  | cons line ls ih =>
    intro fds t
    simp only [socket_deserialize]
    rw [ih]
    cases hfd : lineFd line with
    | none =>
      obtain (⟨hx, hy⟩) := @item_ports_none fds line t hfd
      rw [hx, hy, portsFold_cons_none hfd]
    | some fd =>
      by_cases hc : fd ∈ fds
      · obtain (⟨hx, hy⟩) := @item_ports_some_in fds line fd t hfd hc
        rw [hx, hy, portsFold_cons_some hfd hc]
      · obtain (⟨hx, hy⟩) := @item_ports_some_out fds line fd t hfd hc
        rw [hx, hy, portsFold_cons_some_out hfd hc]

lemma deserialize_scalars_of_port_lines (lines : List SerLine)
    (hl : ∀ line ∈ lines, lineFd line ≠ none) :
    ∀ (fds : List Nat) (t : Sock),
    (socket_deserialize lines fds t).1.deserializedState = t.deserializedState ∧
    (socket_deserialize lines fds t).1.result = t.result ∧
    (socket_deserialize lines fds t).1.nAccepted = t.nAccepted ∧
    (socket_deserialize lines fds t).1.controlPid = t.controlPid ∧
    (socket_deserialize lines fds t).1.controlCommandId = t.controlCommandId := by
  induction lines with
  | nil =>
    intro fds t
    exact ⟨rfl, rfl, rfl, rfl, rfl⟩
  | cons line ls ih =>
    intro fds t
    simp only [socket_deserialize]
    have hitem := @deserialize_item_scalars fds line t
      (hl line (List.mem_cons_self _ _))
    have hih := ih (fun l hm => hl l (List.mem_cons_of_mem _ hm))
      (socket_deserialize_item fds line t).2 (socket_deserialize_item fds line t).1
    exact ⟨hih.1.trans hitem.1, hih.2.1.trans hitem.2.1,
           hih.2.2.1.trans hitem.2.2.1, hih.2.2.2.1.trans hitem.2.2.2.1,
           hih.2.2.2.2.trans hitem.2.2.2.2⟩

lemma lineFd_portLine (k : PortKey) (fd : Nat) :
    lineFd (portLine k fd) = some fd := by
  cases k <;> rfl

lemma lineMatches_portLine (k : PortKey) (fd : Nat) (q : SocketPort) :
    lineMatchesPort (portLine k fd) q = true ↔ q.key = k := by
  cases k <;> simp [portLine, lineMatchesPort]

lemma mem_portLinesOf {line : SerLine} {l : List SocketPort} :
    line ∈ portLinesOf l ↔
      ∃ q ∈ l, ∃ fdq, q.fd = some fdq ∧ line = portLine q.key fdq := by
  simp only [portLinesOf, List.mem_filterMap, Option.map_eq_some']
  constructor
  · rintro ⟨q, hq, fdq, hfd, rfl⟩
    exact ⟨q, hq, fdq, hfd, rfl⟩
  · rintro ⟨q, hq, fdq, hfd, rfl⟩
    exact ⟨q, hq, fdq, hfd, rfl⟩

lemma transplant_not_match (line : SerLine) (fd : Nat) :
    ∀ (u : List SocketPort), (∀ q ∈ u, lineMatchesPort line q = false) →
      transplantFd line fd u = u := by
  intro u
  induction u with
  | nil => intro _; rfl
  | cons q rest ih =>
    intro h
    simp only [transplantFd]
    rw [if_neg (by rw [h q (List.mem_cons_self _ _)]; simp)]
    rw [ih (fun r hr => h r (List.mem_cons_of_mem _ hr))]

lemma portsFold_skip (lines : List SerLine) :
    ∀ (fds : List Nat) (u0 : SocketPort) (u : List SocketPort),
      (∀ line ∈ lines, lineMatchesPort line u0 = false) →
      portsFold lines fds (u0 :: u) =
        (u0 :: (portsFold lines fds u).1, (portsFold lines fds u).2) := by
  induction lines with
  | nil => intro fds u0 u _; rfl
  | cons line ls ih =>
    intro fds u0 u h
    have hl0 := h line (List.mem_cons_self _ _)
    have hrest := fun l hm => h l (List.mem_cons_of_mem _ hm)
    cases hfd : lineFd line with
    | none =>
      rw [portsFold_cons_none hfd, portsFold_cons_none hfd]
      exact ih _ _ _ hrest
    | some fd =>
      by_cases hc : fd ∈ fds
      · rw [portsFold_cons_some hfd hc, portsFold_cons_some hfd hc]
        have htr : transplantFd line fd (u0 :: u) =
            u0 :: transplantFd line fd u := by
          simp only [transplantFd]
          rw [if_neg (by rw [hl0]; simp)]
        rw [htr]
        exact ih _ _ _ hrest
      · rw [portsFold_cons_some_out hfd hc, portsFold_cons_some_out hfd hc]
        exact ih _ _ _ hrest

lemma portsFold_restore : ∀ (l : List SocketPort),
    (l.map SocketPort.key).Nodup →
    portsFold (portLinesOf l) (l.filterMap SocketPort.fd)
        (l.map (fun p => { p with fd := none, watched := false })) =
      (l.map (fun p => { p with watched := false }), []) := by
  intro l
  induction l with
  | nil =>
    intro _
    rfl
  | cons p rest ih =>
    intro hk
    rw [List.map_cons, List.nodup_cons] at hk
    obtain ⟨hkp, hkrest⟩ := hk
    have hnomatch : ∀ line ∈ portLinesOf rest,
        ∀ (u0 : SocketPort), u0.key = p.key → lineMatchesPort line u0 = false := by
      intro line hm u0 hu0
      obtain ⟨q, hq, fdq, _, rfl⟩ := mem_portLinesOf.mp hm
      cases hbool : lineMatchesPort (portLine q.key fdq) u0 with
      | false => rfl
      | true =>
        rw [lineMatches_portLine] at hbool
        exfalso
        apply hkp
        rw [show p.key = q.key from by rw [← hu0, hbool]]
        exact List.mem_map_of_mem _ hq
    cases hp : p.fd with
    | none =>
      have h1 : portLinesOf (p :: rest) = portLinesOf rest := by
        simp [portLinesOf, List.filterMap_cons, hp]
      have h2 : (p :: rest).filterMap SocketPort.fd = rest.filterMap SocketPort.fd := by
        simp [List.filterMap_cons, hp]
      rw [List.map_cons, List.map_cons, h1, h2]
      rw [portsFold_skip _ _ ({ p with fd := none, watched := false }) _
        (fun line hm => hnomatch line hm _ rfl)]
      rw [ih hkrest]
      rw [show ({ p with fd := none, watched := false } : SocketPort) =
            { p with watched := false } from by rw [← hp]]
    | some fd0 =>
      have h1 : portLinesOf (p :: rest) =
          portLine p.key fd0 :: portLinesOf rest := by
        simp [portLinesOf, List.filterMap_cons, hp]
      have h2 : (p :: rest).filterMap SocketPort.fd =
          fd0 :: rest.filterMap SocketPort.fd := by
        simp [List.filterMap_cons, hp]
      rw [List.map_cons, List.map_cons, h1, h2]
      rw [portsFold_cons_some (lineFd_portLine p.key fd0)
        (List.mem_cons_self _ _)]
      rw [List.erase_cons_head]
      have htr : transplantFd (portLine p.key fd0) fd0
          (({ p with fd := none, watched := false } : SocketPort) ::
            rest.map (fun q => { q with fd := none, watched := false })) =
          ({ p with watched := false } : SocketPort) ::
            rest.map (fun q => { q with fd := none, watched := false }) := by
        simp only [transplantFd]
        rw [if_pos ((lineMatches_portLine p.key fd0
          ({ p with fd := none, watched := false })).mpr rfl)]
        have hrec : ({ key := p.key, fd := some fd0, watched := false } : SocketPort) =
            { p with watched := false } := by
          rw [hp]
        rw [hrec]
      rw [htr]
      rw [portsFold_skip _ _ ({ p with watched := false }) _
        (fun line hm => hnomatch line hm _ rfl)]
      rw [ih hkrest]

/-- The scalar prefix of `socket_serialize`. -/
def scalarLines (s : Sock) : List SerLine :=
  [SerLine.stateLine s.state, SerLine.resultLine s.result,
   SerLine.nAcceptedLine s.nAccepted]
  ++ (if s.controlPid > 0 then [SerLine.controlPidLine s.controlPid] else [])
  ++ (match s.controlCommandId with
      | some id => [SerLine.controlCommandLine id]
      | none => [])

lemma serialize_eq_scalar_append (s : Sock) :
    socket_serialize s = scalarLines s ++ portLinesOf s.ports := rfl

lemma deserialize_scalar_prefix (s : Sock) (fds : List Nat) :
    (socket_deserialize (scalarLines s) fds (freshOf s)).1.deserializedState = s.state ∧
    (socket_deserialize (scalarLines s) fds (freshOf s)).1.result = s.result ∧
    (socket_deserialize (scalarLines s) fds (freshOf s)).1.nAccepted = s.nAccepted ∧
    (socket_deserialize (scalarLines s) fds (freshOf s)).1.controlPid = s.controlPid ∧
    (socket_deserialize (scalarLines s) fds (freshOf s)).1.controlCommandId = s.controlCommandId ∧
    (socket_deserialize (scalarLines s) fds (freshOf s)).1.ports = (freshOf s).ports ∧
    (socket_deserialize (scalarLines s) fds (freshOf s)).2 = fds := by
  by_cases hcp : s.controlPid > 0
  · cases hcc : s.controlCommandId with
    | none =>
      by_cases hres : s.result = SocketResult.success <;>
        simp [scalarLines, hcp, hcc, hres, socket_deserialize,
              socket_deserialize_item, freshOf]
    | some id =>
      by_cases hres : s.result = SocketResult.success <;>
        simp [scalarLines, hcp, hcc, hres, socket_deserialize,
              socket_deserialize_item, freshOf]
  · have hcp0 : s.controlPid = 0 := Nat.eq_zero_of_not_pos hcp
    cases hcc : s.controlCommandId with
    | none =>
      by_cases hres : s.result = SocketResult.success <;>
        simp [scalarLines, hcp, hcp0, hcc, hres, socket_deserialize,
              socket_deserialize_item, freshOf]
    | some id =>
      by_cases hres : s.result = SocketResult.success <;>
        simp [scalarLines, hcp, hcp0, hcc, hres, socket_deserialize,
              socket_deserialize_item, freshOf]

lemma port_lines_have_fd (l : List SocketPort) :
    ∀ line ∈ portLinesOf l, lineFd line ≠ none := by
  intro line hm
  obtain ⟨q, hq, fdq, _, rfl⟩ := mem_portLinesOf.mp hm
  rw [lineFd_portLine]
  simp

/-- The serialize/deserialize roundtrip against a freshly loaded unit
with the same configuration: every field of the claimed tuple is
restored, provided the endpoint identities are pairwise distinct. -/
lemma roundtrip_core (s : Sock)
    (hk : (s.ports.map SocketPort.key).Nodup) :
    (socket_deserialize (socket_serialize s) (serializedFds s) (freshOf s)).1.deserializedState = s.state ∧
    (socket_deserialize (socket_serialize s) (serializedFds s) (freshOf s)).1.result = s.result ∧
    (socket_deserialize (socket_serialize s) (serializedFds s) (freshOf s)).1.nAccepted = s.nAccepted ∧
    (socket_deserialize (socket_serialize s) (serializedFds s) (freshOf s)).1.controlPid = s.controlPid ∧
    (socket_deserialize (socket_serialize s) (serializedFds s) (freshOf s)).1.controlCommandId = s.controlCommandId ∧
    (socket_deserialize (socket_serialize s) (serializedFds s) (freshOf s)).1.ports.map (fun p => (p.key, p.fd)) = s.ports.map (fun p => (p.key, p.fd)) ∧
    (socket_deserialize (socket_serialize s) (serializedFds s) (freshOf s)).2 = [] := by
  rw [serialize_eq_scalar_append, deserialize_append]
  obtain ⟨hds, hres, hna, hcp, hcc, hpo, hfds⟩ :=
    deserialize_scalar_prefix s (serializedFds s)
  have hsc := deserialize_scalars_of_port_lines (portLinesOf s.ports)
    (port_lines_have_fd s.ports)
    (socket_deserialize (scalarLines s) (serializedFds s) (freshOf s)).2
    (socket_deserialize (scalarLines s) (serializedFds s) (freshOf s)).1
  have hpp := deserialize_ports_eq (portLinesOf s.ports)
    (socket_deserialize (scalarLines s) (serializedFds s) (freshOf s)).2
    (socket_deserialize (scalarLines s) (serializedFds s) (freshOf s)).1
  have hfold : portsFold (portLinesOf s.ports)
      (socket_deserialize (scalarLines s) (serializedFds s) (freshOf s)).2
      (socket_deserialize (scalarLines s) (serializedFds s) (freshOf s)).1.ports =
      (s.ports.map (fun p => { p with watched := false }), []) := by
    rw [hfds, hpo]
    exact portsFold_restore s.ports hk
  rw [hfold, Prod.mk.injEq] at hpp
  obtain ⟨hP, hF⟩ := hpp
  refine ⟨hsc.1.trans hds, hsc.2.1.trans hres, hsc.2.2.1.trans hna,
    hsc.2.2.2.1.trans hcp, hsc.2.2.2.2.trans hcc, ?_, hF⟩
  rw [hP, List.map_map]
  rfl

/-! ## Counter and result bookkeeping of the stop path -/

lemma latch_counters (f : SocketResult) (s : Sock) :
    (latchResult f s).nAccepted = s.nAccepted ∧
    (latchResult f s).nConnections = s.nConnections := by
  unfold latchResult
  split <;> exact ⟨rfl, rfl⟩

lemma counters_enter_dead (f : SocketResult) (s : Sock) :
    (socket_enter_dead f s).nAccepted = s.nAccepted ∧
    (socket_enter_dead f s).nConnections = s.nConnections := by
  simp only [socket_enter_dead]
  refine ⟨(set_state_counters _ _).1.trans (latch_counters f s).1,
          (set_state_counters _ _).2.trans (latch_counters f s).2⟩

lemma counters_signal_core (env : Env) (st : SocketState) (f : SocketResult)
    (s : Sock) (cont : SocketResult → Sock → Sock)
    (hcont : ∀ f' s', (cont f' s').nAccepted = s'.nAccepted ∧
                      (cont f' s').nConnections = s'.nConnections) :
    (socket_enter_signal_core env st f s cont).nAccepted = s.nAccepted ∧
    (socket_enter_signal_core env st f s cont).nConnections = s.nConnections := by
  simp only [socket_enter_signal_core]
  rcases env.killOutcome st with _ | _ | _
  · exact ⟨(hcont _ _).1.trans (latch_counters f s).1,
           (hcont _ _).2.trans (latch_counters f s).2⟩
  · exact ⟨(hcont _ _).1.trans (latch_counters f s).1,
           (hcont _ _).2.trans (latch_counters f s).2⟩
  · show ((if env.watchTimerOk = true then
        socket_set_state st { latchResult f s with timerArmed := true }
      else cont .failureResources (latchResult f s)).nAccepted = s.nAccepted ∧ _)
    split
    · exact ⟨(set_state_counters _ _).1.trans (latch_counters f s).1,
             (set_state_counters _ _).2.trans (latch_counters f s).2⟩
    · exact ⟨(hcont _ _).1.trans (latch_counters f s).1,
             (hcont _ _).2.trans (latch_counters f s).2⟩

lemma counters_signal_final (env : Env) (st : SocketState) (f : SocketResult)
    (s : Sock) :
    (socket_enter_signal_final env st f s).nAccepted = s.nAccepted ∧
    (socket_enter_signal_final env st f s).nConnections = s.nConnections :=
  counters_signal_core env st f s _ (fun f' s' => counters_enter_dead f' s')

lemma counters_stop_post (env : Env) (f : SocketResult) (s : Sock) :
    (socket_enter_stop_post env f s).nAccepted = s.nAccepted ∧
    (socket_enter_stop_post env f s).nConnections = s.nConnections := by
  simp only [socket_enter_stop_post]
  split
  · rcases hsp : socket_spawn env .stopPost _ with s1 | ⟨s1, pid⟩
    · have h1 := counters_signal_final env .finalSigterm .failureResources s1
      have h2 : s1.nAccepted = s.nAccepted ∧ s1.nConnections = s.nConnections := by
        unfold socket_spawn at hsp
        split at hsp
        · cases hsp
        · cases hsp
          exact (latch_counters f s)
      exact ⟨h1.1.trans h2.1, h1.2.trans h2.2⟩
    · have h2 : s1.nAccepted = s.nAccepted ∧ s1.nConnections = s.nConnections := by
        unfold socket_spawn at hsp
        split at hsp
        · cases hsp
          exact (latch_counters f s)
        · cases hsp
      exact ⟨(set_state_counters _ _).1.trans h2.1,
             (set_state_counters _ _).2.trans h2.2⟩
  · exact ⟨(counters_signal_final _ _ _ _).1.trans (latch_counters f s).1,
           (counters_signal_final _ _ _ _).2.trans (latch_counters f s).2⟩

lemma counters_stop_pre (env : Env) (f : SocketResult) (s : Sock) :
    (socket_enter_stop_pre env f s).nAccepted = s.nAccepted ∧
    (socket_enter_stop_pre env f s).nConnections = s.nConnections := by
  simp only [socket_enter_stop_pre]
  split
  · rcases hsp : socket_spawn env .stopPre _ with s1 | ⟨s1, pid⟩
    · have h1 := counters_stop_post env .failureResources s1
      have h2 : s1.nAccepted = s.nAccepted ∧ s1.nConnections = s.nConnections := by
        unfold socket_spawn at hsp
        split at hsp
        · cases hsp
        · cases hsp
          exact (latch_counters f s)
      exact ⟨h1.1.trans h2.1, h1.2.trans h2.2⟩
    · have h2 : s1.nAccepted = s.nAccepted ∧ s1.nConnections = s.nConnections := by
        unfold socket_spawn at hsp
        split at hsp
        · cases hsp
          exact (latch_counters f s)
        · cases hsp
      exact ⟨(set_state_counters _ _).1.trans h2.1,
             (set_state_counters _ _).2.trans h2.2⟩
  · exact ⟨(counters_stop_post _ _ _).1.trans (latch_counters f s).1,
           (counters_stop_post _ _ _).2.trans (latch_counters f s).2⟩

lemma result_enter_dead_keep {f : SocketResult} {s : Sock}
    (hf : f = .success ∨ f = .failureResources)
    (h : s.result = .failureResources) :
    (socket_enter_dead f s).result = .failureResources := by
  simp only [socket_enter_dead]
  rw [set_state_result, latch_result]
  rcases hf with rfl | rfl
  · rw [if_pos rfl]
    exact h
  · rw [if_neg (by decide)]

lemma result_signal_core_keep {env : Env} {st : SocketState} {f : SocketResult}
    {s : Sock} {cont : SocketResult → Sock → Sock}
    (hcont : ∀ f' s', (f' = .success ∨ f' = .failureResources) →
      s'.result = .failureResources → (cont f' s').result = .failureResources)
    (hf : f = .success ∨ f = .failureResources)
    (h : s.result = .failureResources) :
    (socket_enter_signal_core env st f s cont).result = .failureResources := by
  have hlat : (latchResult f s).result = .failureResources := by
    rw [latch_result]
    rcases hf with rfl | rfl
    · rw [if_pos rfl]
      exact h
    · rw [if_neg (by decide)]
  simp only [socket_enter_signal_core]
  rcases env.killOutcome st with _ | _ | _
  · exact hcont _ _ (Or.inr rfl) hlat
  · exact hcont _ _ (Or.inl rfl) hlat
  · show (if env.watchTimerOk = true then
        socket_set_state st { latchResult f s with timerArmed := true }
      else cont .failureResources (latchResult f s)).result = _
    split
    · rw [set_state_result]
      exact hlat
    · exact hcont _ _ (Or.inr rfl) hlat

lemma result_signal_final_keep {env : Env} {st : SocketState} {f : SocketResult}
    {s : Sock} (hf : f = .success ∨ f = .failureResources)
    (h : s.result = .failureResources) :
    (socket_enter_signal_final env st f s).result = .failureResources :=
  result_signal_core_keep
    (fun f' s' hf' h' => result_enter_dead_keep hf' h') hf h

lemma result_stop_post_keep {env : Env} {f : SocketResult} {s : Sock}
    (hf : f = .success ∨ f = .failureResources)
    (h : s.result = .failureResources) :
    (socket_enter_stop_post env f s).result = .failureResources := by
  have hlat : (latchResult f s).result = .failureResources := by
    rw [latch_result]
    rcases hf with rfl | rfl
    · rw [if_pos rfl]
      exact h
    · rw [if_neg (by decide)]
  simp only [socket_enter_stop_post]
  split
  · rcases hsp : socket_spawn env .stopPost _ with s1 | ⟨s1, pid⟩
    · refine result_signal_final_keep (Or.inr rfl) ?_
      rw [(spawn_err_eqs hsp).2.2]
      exact hlat
    · rw [set_state_result]
      show s1.result = _
      rw [(spawn_ok_eqs hsp).2.2]
      exact hlat
  · exact result_signal_final_keep (Or.inl rfl) hlat

lemma result_stop_pre_resources (env : Env) (s : Sock) :
    (socket_enter_stop_pre env .failureResources s).result = .failureResources := by
  have hlat : (latchResult .failureResources s).result = .failureResources := by
    rw [latch_result]
    rw [if_neg (by decide)]
  simp only [socket_enter_stop_pre]
  split
  · rcases hsp : socket_spawn env .stopPre _ with s1 | ⟨s1, pid⟩
    · refine result_stop_post_keep (Or.inr rfl) ?_
      rw [(spawn_err_eqs hsp).2.2]
      exact hlat
    · rw [set_state_result]
      show s1.result = _
      rw [(spawn_ok_eqs hsp).2.2]
      exact hlat
  · exact result_stop_post_keep (Or.inl rfl) hlat

/-! ## Behavior of the accept branch -/

lemma instantiate_err_eq {env : Env} {s s1 : Sock}
    (h : socket_instantiate_service env s = .error s1) :
    s1 = s ∧ s.serviceSet = false ∧ env.instantiateOk = false := by
  unfold socket_instantiate_service at h
  split at h
  · cases h
  · split at h
    · cases h
    · cases h
      refine ⟨rfl, ?_, ?_⟩
      · rename_i h1 _
        exact Bool.not_eq_true _ ▸ Bool.of_not_eq_true h1
      · rename_i h2
        exact Bool.of_not_eq_true h2

lemma handoff_spec (env : Env) (s1 : Sock) :
    ((socket_running_handoff env s1).1.nConnections = s1.nConnections + 1 ↔
      (socket_running_handoff env s1).2 = .handedOff) ∧
    ((socket_running_handoff env s1).2 ≠ .handedOff →
      (socket_running_handoff env s1).2 = .closedLocal ∧
      (socket_running_handoff env s1).1.nConnections = s1.nConnections) := by
  simp only [socket_running_handoff]
  split
  · refine ⟨⟨fun h => ?_, fun h => nomatch h⟩,
            fun _ => ⟨rfl, (counters_stop_pre _ _ _).2⟩⟩
    have h' : s1.nConnections = s1.nConnections + 1 :=
      ((counters_stop_pre _ _ _).2.symm.trans h)
    omega
  · split
    · refine ⟨⟨fun h => ?_, fun h => nomatch h⟩,
              fun _ => ⟨rfl, (counters_stop_pre _ _ _).2⟩⟩
      have h' : s1.nConnections = s1.nConnections + 1 :=
        ((counters_stop_pre _ _ _).2.symm.trans h)
      omega
    · split
      · refine ⟨⟨fun h => ?_, fun h => nomatch h⟩,
                fun _ => ⟨rfl, (counters_stop_pre _ _ _).2⟩⟩
        have h' : s1.nConnections = s1.nConnections + 1 :=
          ((counters_stop_pre _ _ _).2.symm.trans h)
        omega
      · split
        · refine ⟨⟨fun h => ?_, fun h => nomatch h⟩,
                  fun _ => ⟨rfl, ?_⟩⟩
          · have h0 := Eq.trans (counters_stop_pre env .failureResources _).2.symm h
            have h' : s1.nConnections = s1.nConnections + 1 := h0
            omega
          · exact (counters_stop_pre _ _ _).2
        · split
          · refine ⟨iff_of_true ?_ rfl, fun h => absurd rfl h⟩
            exact (counters_stop_pre _ _ _).2
          · exact ⟨iff_of_true rfl rfl, fun h => absurd rfl h⟩

lemma accept_spec (env : Env) (s : Sock) :
    ((socket_running_accept env s).1.nConnections = s.nConnections + 1 ↔
      (socket_running_accept env s).2 = .handedOff) ∧
    ((socket_running_accept env s).2 ≠ .handedOff →
      (socket_running_accept env s).2 = .closedLocal ∧
      (socket_running_accept env s).1.nConnections = s.nConnections) := by
  simp only [socket_running_accept]
  split
  · refine ⟨⟨fun h => ?_, fun h => nomatch h⟩, fun _ => ⟨rfl, rfl⟩⟩
    have h' : s.nConnections = s.nConnections + 1 := h
    omega
  · rcases hinst : socket_instantiate_service env s with s1 | s1
    · obtain ⟨rfl, -, -⟩ := instantiate_err_eq hinst
      refine ⟨⟨fun h => ?_, fun h => nomatch h⟩,
              fun _ => ⟨rfl, (counters_stop_pre _ _ _).2⟩⟩
      have h' : s1.nConnections = s1.nConnections + 1 :=
        ((counters_stop_pre _ _ _).2.symm.trans h)
      omega
    · have hn : s1.nConnections = s.nConnections :=
        (instantiate_eqs (Or.inl hinst)).2.2.2.2
      rcases env.instanceLookup with _ | _ | _
      · have hh := handoff_spec env s1
        rw [hn] at hh
        exact hh
      · refine ⟨⟨fun h => ?_, fun h => nomatch h⟩, fun _ => ⟨rfl, hn⟩⟩
        have h' : s.nConnections = s.nConnections + 1 := hn ▸ h
        omega
      · refine ⟨⟨fun h => ?_, fun h => nomatch h⟩,
                fun _ => ⟨rfl, (counters_stop_pre _ _ _).2.trans hn⟩⟩
        have h' : s.nConnections = s.nConnections + 1 :=
          (((counters_stop_pre _ _ _).2.trans hn).symm.trans h)
        omega

/-! ## The open-all loop: skipping, in-order opening, rollback -/

lemma close_fds_all_none (s : Sock) :
    ∀ p ∈ (socket_close_fds s).ports, p.fd = none := by
  intro p hp
  simp only [socket_close_fds, List.mem_map] at hp
  obtain ⟨q, hq, rfl⟩ := hp
  by_cases hf : q.fd.isSome
  · rw [if_pos hf]
  · rw [if_neg hf]
    exact Option.not_isSome_iff_eq_none.mp hf

lemma open_loop_ok (env : Env) (know : Bool) (l ps : List SocketPort)
    (h : socket_open_fds_loop env know l = .ok ps) :
    List.Forall₂ (fun p q => (p.fd.isSome = true → q = p) ∧
      (p.fd = none → q.key = p.key ∧ q.fd = env.openOutcome p.key ∧
        q.watched = p.watched)) l ps := by
  induction l generalizing know ps with
  | nil =>
    cases h
    exact List.Forall₂.nil
  | cons p rest ih =>
    simp only [socket_open_fds_loop] at h
    by_cases hf : p.fd.isSome
    · rw [if_pos hf] at h
      split at h
      · cases h
        exact List.Forall₂.cons
          ⟨fun _ => rfl,
           fun hc => absurd (hc ▸ hf) (by decide)⟩ (ih _ _ (by assumption))
      · cases h
      · cases h
    · rw [if_neg hf] at h
      split at h
      · cases h
      · cases hout : env.openOutcome p.key with
        | some fd =>
          rw [hout] at h
          rcases hrest : socket_open_fds_loop env (know ∨ p.key.isSocketKind) rest
            with ps' | ps' | ps' <;> rw [hrest] at h
          · cases h
            refine List.Forall₂.cons
              ⟨fun hcon => absurd hcon hf,
               fun _ => ⟨rfl, by rw [hout], rfl⟩⟩ (ih _ _ hrest)
          · cases h
          · cases h
        | none =>
          rw [hout] at h
          cases h

lemma open_loop_no_errReturn (env : Env) (know : Bool) (l ps : List SocketPort)
    (hl : env.labelPhaseOk = true)
    (h : socket_open_fds_loop env know l = .errReturn ps) : False := by
  induction l generalizing know ps with
  | nil =>
    cases h
  | cons p rest ih =>
    simp only [socket_open_fds_loop] at h
    by_cases hf : p.fd.isSome
    · rw [if_pos hf] at h
      split at h
      · cases h
      · cases h
        exact ih _ _ (by assumption)
      · cases h
    · rw [if_neg hf] at h
      split at h
      · rename_i hcond
        exact hcond.2.2 hl
      · split at h
        · split at h
          · cases h
          · cases h
            exact ih _ _ (by assumption)
          · cases h
        · cases h

/-! ## Concrete fixtures -/

/-- An environment where every collaborator succeeds. -/
def demoEnv : Env :=
  { stopPending := false, triggerPending := false, spawnOk := fun _ => true,
    pidFor := fun _ => 7, runNextOk := true, chownForkPid := some 8,
    watchTimerOk := true, watchFdOk := fun _ => true,
    killOutcome := fun _ => .alive, labelPhaseOk := true,
    openOutcome := fun _ => some 5, instantiateOk := true,
    serviceLoaded := true, serviceActive := false, instanceLookup := .ok,
    prefixNameOk := true, nameBuildOk := true, addNameOk := true,
    setSocketFdOk := true, addJobOk := true }

/-- A freshly loaded unit with one ExecStartPre command and no ports. -/
def demoSock : Sock :=
  { state := .dead, result := .success, nAccepted := 0, nConnections := 0,
    maxConnections := 64, controlPid := 0, controlCommandId := none,
    controlCommand := [], timerArmed := false, ports := [],
    deserializedState := .dead,
    execCommand := { startPre := [⟨false⟩], startChown := [], startPost := [],
                     stopPre := [], stopPost := [] },
    accept := false, serviceSet := false, hasUserOrGroup := false,
    sendSigkill := true }

/-- `demoEnv` with a stop job pending on the unit. -/
def envStop : Env := { demoEnv with stopPending := true }

/-- A LISTENING unit with one open, watched FIFO endpoint. -/
def sockListen : Sock :=
  { demoSock with
    state := .listening,
    ports := [⟨PortKey.fifo "/run/a", some 3, true⟩] }

/-- A LISTENING unit whose two endpoints share one address. -/
def sockDup : Sock :=
  { demoSock with
    state := .listening,
    ports := [⟨PortKey.fifo "/run/a", some 3, false⟩,
              ⟨PortKey.fifo "/run/a", some 4, false⟩] }

/-- A LISTENING unit with runtime state worth serializing and two
endpoints at distinct addresses. -/
def sockRT : Sock :=
  { demoSock with
    state := .listening, result := .failureTimeout,
    nAccepted := 5, controlPid := 9, controlCommandId := some .startPre,
    ports := [⟨PortKey.fifo "/run/a", some 3, false⟩,
              ⟨PortKey.fifo "/run/b", some 4, false⟩] }

/-- A unit with one endpoint already open and one still closed. -/
def sockHalfOpen : Sock :=
  { demoSock with
    ports := [⟨PortKey.fifo "/run/a", some 5, false⟩,
              ⟨PortKey.fifo "/run/b", none, false⟩] }

/-- The expected result of opening `sockHalfOpen`'s closed endpoint
under `demoEnv`. -/
def sockHalfOpenOk : Sock :=
  { sockHalfOpen with
    ports := [⟨PortKey.fifo "/run/a", some 5, false⟩,
              ⟨PortKey.fifo "/run/b", some 5, false⟩] }

/-- `demoEnv` where creating the endpoint at `/run/b` fails. -/
def envFailB : Env :=
  { demoEnv with openOutcome := fun k => if k = .fifo "/run/b" then none else some 9 }

/-- A FAILED unit with a latched failure from an earlier run. -/
def sockFailed : Sock :=
  { demoSock with state := .failed, result := .failureExitCode }

/-- A LISTENING unit at its connection limit. -/
def sockMax : Sock :=
  { demoSock with state := .listening, nConnections := 64 }

/-- A LISTENING unit whose connection service is already minted. -/
def sockSvc : Sock :=
  { demoSock with state := .listening, serviceSet := true }

/-- `demoEnv` where `instance_from_socket` fails with ENOTCONN. -/
def envEnotconn : Env := { demoEnv with instanceLookup := .errEnotconn }

/-- A unit waiting in STOP_POST on its control process. -/
def sockStopPost : Sock := { demoSock with state := .stopPost }

/-! ## The claims -/

/-- C1 counterexample: the result is NOT latched by a
`result == Success` guard.  Starting `demoSock` spawns ExecStartPre; a
timeout latches `FailureTimeout` (the first failing result); the
control process then exiting nonzero latches `FailureExitCode` over
it, so a later transition carrying a different failure does overwrite
the first failing result. -/
theorem result_first_failure_counterexample :
    (step demoEnv .timer (step demoEnv .start demoSock)).result =
      .failureTimeout ∧
    (step demoEnv (.sigchld 7 .exitedNonzero)
        (step demoEnv .timer (step demoEnv .start demoSock))).result =
      .failureExitCode := by
  exact ⟨by decide, by decide⟩

/-- C1 (amended): every transition latches with
`if (f != SOCKET_SUCCESS) s->result = f;` — a non-Success argument
unconditionally overwrites (the LAST failing result wins), while a
Success argument never erases a latched failure: apart from `start`
and `reset_failed`, which deliberately reset the result, no event can
take `s->result` from a failure back to Success. -/
theorem result_never_unlatched (env : Env) (e : Event) (s : Sock)
    (he : e ≠ .start ∧ e ≠ .resetFailed) :
    ((step env e s).result = .success → s.result = .success) ∧
    (∀ f, f ≠ .success → (latchResult f s).result = f) := by
  refine ⟨?_, fun f hf => by rw [latch_result, if_neg hf]⟩
  intro h
  cases e with
  | start => exact absurd rfl he.1
  | stop => exact resMono_stop h
  | fdReadable cfd => exact resMono_fd_event h
  | fdBadEvent => exact resMono_fd_event h
  | sigchld pid k => exact resMono_sigchld h
  | timer => exact resMono_timer h
  | serviceDead fp => exact resMono_notify_service_dead h
  | connectionUnref => exact resMono_connection_unref h
  | resetFailed => exact absurd rfl he.2

/-- C1 witness: a connection-unref step on a Success unit keeps
Success, and latching a failure records exactly that failure. -/
theorem result_never_unlatched_witness :
    demoSock.result = .success ∧
    (latchResult .failureSignal demoSock).result = .failureSignal :=
  ⟨(result_never_unlatched demoEnv .connectionUnref demoSock
      ⟨by decide, by decide⟩).1 (by decide),
   (result_never_unlatched demoEnv .connectionUnref demoSock
      ⟨by decide, by decide⟩).2 .failureSignal (by decide)⟩

/-- C2 (amended): after every event the endpoint invariant holds — an
endpoint fd is open only in the open-fd states, and an endpoint is
watched iff the unit is LISTENING and that endpoint is open.  (The
claim's frame clause — that only a state transition changes which fds
are open — is refuted separately.) -/
theorem fd_watch_invariant_step (env : Env) (e : Event) (s : Sock)
    (h : SockInv s) : SockInv (step env e s) := by
  cases e with
  | start => exact SockInv_start env s h
  | stop => exact SockInv_stop env s h
  | fdReadable cfd => exact SockInv_fd_event env true cfd s h
  | fdBadEvent => exact SockInv_fd_event env false none s h
  | sigchld pid k => exact SockInv_sigchld env pid k s h
  | timer => exact SockInv_timer env s h
  | serviceDead fp => exact SockInv_notify_service_dead env fp s h
  | connectionUnref => exact SockInv_connection_unref s h
  | resetFailed => exact SockInv_reset_failed s h

/-- C2 witness: the invariant holds of the listening fixture and is
preserved by a stop request. -/
theorem fd_watch_invariant_step_witness :
    SockInv sockListen ∧ SockInv (step demoEnv .stop sockListen) :=
  ⟨⟨by decide, by decide⟩,
   fd_watch_invariant_step demoEnv .stop sockListen ⟨by decide, by decide⟩⟩

/-- C2 counterexample: a state transition is NOT the only site that
changes which fds are open.  With a stop job pending, the flush branch
of `socket_enter_running` closes every endpoint fd without any
`socket_set_state` call: the unit stays in LISTENING (where fds may be
open) yet its endpoint went from open to closed. -/
theorem fd_flush_without_transition_counterexample :
    (socket_enter_running envStop none sockListen).1.state =
      SocketState.listening ∧
    (socket_enter_running envStop none sockListen).1.state =
      sockListen.state ∧
    sockListen.ports.map SocketPort.fd = [some 3] ∧
    (socket_enter_running envStop none sockListen).1.ports.map
      SocketPort.fd = [none] := by
  exact ⟨by decide, by decide, by decide, by decide⟩

/-- C3 (amended): for a unit in a non-transient state whose endpoints
have pairwise distinct addresses, deserializing the serialized lines
against a freshly loaded unit with the same endpoint list restores
exactly the tuple (state, result, n_accepted, control_pid,
control_command_id, endpoint-fds-by-address), consuming every
serialized fd.  (Distinctness is needed: duplicate addresses are
refuted separately.) -/
theorem serialize_roundtrip_restores_tuple (s : Sock)
    (_hstate : s.state = .dead ∨ s.state = .listening ∨
      s.state = .running ∨ s.state = .failed)
    (hk : (s.ports.map SocketPort.key).Nodup) :
    (socket_deserialize (socket_serialize s) (serializedFds s) (freshOf s)).1.deserializedState = s.state ∧
    (socket_deserialize (socket_serialize s) (serializedFds s) (freshOf s)).1.result = s.result ∧
    (socket_deserialize (socket_serialize s) (serializedFds s) (freshOf s)).1.nAccepted = s.nAccepted ∧
    (socket_deserialize (socket_serialize s) (serializedFds s) (freshOf s)).1.controlPid = s.controlPid ∧
    (socket_deserialize (socket_serialize s) (serializedFds s) (freshOf s)).1.controlCommandId = s.controlCommandId ∧
    (socket_deserialize (socket_serialize s) (serializedFds s) (freshOf s)).1.ports.map (fun p => (p.key, p.fd)) = s.ports.map (fun p => (p.key, p.fd)) ∧
    (socket_deserialize (socket_serialize s) (serializedFds s) (freshOf s)).2 = [] :=
  roundtrip_core s hk

/-- C3 witness: the roundtrip restores the listening fixture with two
distinct endpoint addresses. -/
theorem serialize_roundtrip_restores_tuple_witness :
    (socket_deserialize (socket_serialize sockRT) (serializedFds sockRT) (freshOf sockRT)).1.deserializedState = sockRT.state ∧
    (socket_deserialize (socket_serialize sockRT) (serializedFds sockRT) (freshOf sockRT)).1.result = sockRT.result ∧
    (socket_deserialize (socket_serialize sockRT) (serializedFds sockRT) (freshOf sockRT)).1.nAccepted = sockRT.nAccepted ∧
    (socket_deserialize (socket_serialize sockRT) (serializedFds sockRT) (freshOf sockRT)).1.controlPid = sockRT.controlPid ∧
    (socket_deserialize (socket_serialize sockRT) (serializedFds sockRT) (freshOf sockRT)).1.controlCommandId = sockRT.controlCommandId ∧
    (socket_deserialize (socket_serialize sockRT) (serializedFds sockRT) (freshOf sockRT)).1.ports.map (fun p => (p.key, p.fd)) = sockRT.ports.map (fun p => (p.key, p.fd)) ∧
    (socket_deserialize (socket_serialize sockRT) (serializedFds sockRT) (freshOf sockRT)).2 = [] :=
  serialize_roundtrip_restores_tuple sockRT (by decide) (by decide)

/-- C3 counterexample: with two endpoints at the SAME address, the
deserializer's first-match search transplants both serialized fds into
the first endpoint (the second transplant overwriting the first), so
the endpoint-fds-by-address tuple is not restored. -/
theorem serialize_roundtrip_duplicate_counterexample :
    (socket_deserialize (socket_serialize sockDup) (serializedFds sockDup)
        (freshOf sockDup)).1.ports.map (fun p => (p.key, p.fd)) ≠
      sockDup.ports.map (fun p => (p.key, p.fd)) ∧
    (socket_deserialize (socket_serialize sockDup) (serializedFds sockDup)
        (freshOf sockDup)).1.ports.map SocketPort.fd = [some 4, none] ∧
    sockDup.ports.map SocketPort.fd = [some 3, some 4] := by
  exact ⟨by decide, by decide, by decide⟩

/-- C4: a timer fire in each transient state advances the machine
exactly as the timeout table says — StartPre to the FinalSigterm kill
path, StartChown/StartPost to StopPre, StopPre to StopPreSigterm,
StopPreSigterm to StopPreSigkill or StopPost by send_sigkill,
StopPreSigkill to StopPost, StopPost to FinalSigterm, FinalSigterm to
FinalSigkill or Dead by send_sigkill, FinalSigkill to Dead, each with
FailureTimeout — and the state's rank strictly decreases, so no state
loops under timeouts. -/
theorem timer_dispatch_table (env : Env) (s : Sock)
    (h : s.state ∈ controlStates) :
    (s.state = .startPre → socket_timer_event env s =
      socket_enter_signal env .finalSigterm .failureTimeout s) ∧
    (s.state = .startChown → socket_timer_event env s =
      socket_enter_stop_pre env .failureTimeout s) ∧
    (s.state = .startPost → socket_timer_event env s =
      socket_enter_stop_pre env .failureTimeout s) ∧
    (s.state = .stopPre → socket_timer_event env s =
      socket_enter_signal env .stopPreSigterm .failureTimeout s) ∧
    (s.state = .stopPreSigterm → socket_timer_event env s =
      (if s.sendSigkill then
        socket_enter_signal env .stopPreSigkill .failureTimeout s
      else socket_enter_stop_post env .failureTimeout s)) ∧
    (s.state = .stopPreSigkill → socket_timer_event env s =
      socket_enter_stop_post env .failureTimeout s) ∧
    (s.state = .stopPost → socket_timer_event env s =
      socket_enter_signal env .finalSigterm .failureTimeout s) ∧
    (s.state = .finalSigterm → socket_timer_event env s =
      (if s.sendSigkill then
        socket_enter_signal env .finalSigkill .failureTimeout s
      else socket_enter_dead .failureTimeout s)) ∧
    (s.state = .finalSigkill → socket_timer_event env s =
      socket_enter_dead .failureTimeout s) ∧
    stateRank (socket_timer_event env s).state < stateRank s.state := by
  refine ⟨fun hst => ?_, fun hst => ?_, fun hst => ?_, fun hst => ?_,
    fun hst => ?_, fun hst => ?_, fun hst => ?_, fun hst => ?_,
    fun hst => ?_, ?_⟩
  case _ => unfold socket_timer_event; rw [hst]
  case _ => unfold socket_timer_event; rw [hst]
  case _ => unfold socket_timer_event; rw [hst]
  case _ => unfold socket_timer_event; rw [hst]
  case _ => unfold socket_timer_event; rw [hst]
  case _ => unfold socket_timer_event; rw [hst]
  case _ => unfold socket_timer_event; rw [hst]
  case _ => unfold socket_timer_event; rw [hst]
  case _ => unfold socket_timer_event; rw [hst]
  unfold socket_timer_event
  cases hst : s.state with
  | startPre =>
    exact lt_of_le_of_lt
      (rank_signal env .finalSigterm .failureTimeout s (by decide)) (by decide)
  | startChown =>
    exact lt_of_le_of_lt (rank_stop_pre env .failureTimeout s) (by decide)
  | startPost =>
    exact lt_of_le_of_lt (rank_stop_pre env .failureTimeout s) (by decide)
  | stopPre =>
    exact lt_of_le_of_lt
      (rank_signal env .stopPreSigterm .failureTimeout s (by decide)) (by decide)
  | stopPreSigterm =>
    show stateRank (if s.sendSigkill = true then
        socket_enter_signal env .stopPreSigkill .failureTimeout s
      else socket_enter_stop_post env .failureTimeout s).state < _
    split
    · exact lt_of_le_of_lt
        (rank_signal env .stopPreSigkill .failureTimeout s (by decide)) (by decide)
    · exact lt_of_le_of_lt (rank_stop_post env .failureTimeout s) (by decide)
  | stopPreSigkill =>
    exact lt_of_le_of_lt (rank_stop_post env .failureTimeout s) (by decide)
  | stopPost =>
    exact lt_of_le_of_lt
      (rank_signal env .finalSigterm .failureTimeout s (by decide)) (by decide)
  | finalSigterm =>
    show stateRank (if s.sendSigkill = true then
        socket_enter_signal env .finalSigkill .failureTimeout s
      else socket_enter_dead .failureTimeout s).state < _
    split
    · exact lt_of_le_of_lt
        (rank_signal env .finalSigkill .failureTimeout s (by decide)) (by decide)
    · rw [rank_enter_dead]
      decide
  | finalSigkill =>
    rw [rank_enter_dead]
    decide
  | dead => exact absurd (hst ▸ h) (by decide)
  | failed => exact absurd (hst ▸ h) (by decide)
  | listening => exact absurd (hst ▸ h) (by decide)
  | running => exact absurd (hst ▸ h) (by decide)

/-- C4 witness: a timeout in STOP_POST strictly decreases the rank. -/
theorem timer_dispatch_table_witness :
    sockStopPost.state ∈ controlStates ∧
    stateRank (socket_timer_event demoEnv sockStopPost).state <
      stateRank sockStopPost.state :=
  ⟨by decide,
   (timer_dispatch_table demoEnv sockStopPost (by decide)).2.2.2.2.2.2.2.2.2⟩

/-- C5: for an accepted connection dispatched by
`socket_enter_running`, `n_connections` is incremented iff the fd was
handed off to the minted service (`service_set_socket_fd` succeeded);
on any failure before or during the hand-off the fd is closed locally
and `n_connections` is unchanged. -/
theorem accept_handoff_atomic (env : Env) (fd : Nat) (s : Sock) :
    ((socket_enter_running env (some fd) s).1.nConnections =
        s.nConnections + 1 ↔
      (socket_enter_running env (some fd) s).2 = .handedOff) ∧
    ((socket_enter_running env (some fd) s).2 ≠ .handedOff →
      (socket_enter_running env (some fd) s).2 = .closedLocal ∧
      (socket_enter_running env (some fd) s).1.nConnections =
        s.nConnections) := by
  unfold socket_enter_running
  split
  · refine ⟨⟨fun h => ?_, fun h => nomatch h⟩, fun _ => ⟨rfl, rfl⟩⟩
    have h' : s.nConnections = s.nConnections + 1 := h
    omega
  · exact accept_spec env s

/-- C6: at the connection limit a new arrival is refused — the
accepted fd is closed locally, the unit stays LISTENING, and neither
counter changes. -/
theorem max_connections_refused (env : Env) (fd : Nat) (s : Sock)
    (hstop : env.stopPending = false) (hstate : s.state = .listening)
    (hmax : s.nConnections = s.maxConnections) :
    socket_enter_running env (some fd) s = (s, .closedLocal) ∧
    (socket_enter_running env (some fd) s).1.state = .listening ∧
    (socket_enter_running env (some fd) s).1.nAccepted = s.nAccepted ∧
    (socket_enter_running env (some fd) s).1.nConnections =
      s.nConnections := by
  have hrun : socket_enter_running env (some fd) s = (s, .closedLocal) := by
    unfold socket_enter_running
    rw [if_neg (by simp [hstop])]
    show socket_running_accept env s = _
    unfold socket_running_accept
    rw [if_pos (le_of_eq hmax.symm)]
  refine ⟨hrun, ?_, ?_, ?_⟩ <;> rw [hrun]
  exact hstate

/-- C6 witness: with `n_connections = max_connections = 64` an arrival
is refused and the fixture is unchanged. -/
theorem max_connections_refused_witness :
    socket_enter_running demoEnv (some 11) sockMax = (sockMax, .closedLocal) ∧
    (socket_enter_running demoEnv (some 11) sockMax).1.state = .listening ∧
    (socket_enter_running demoEnv (some 11) sockMax).1.nAccepted =
      sockMax.nAccepted ∧
    (socket_enter_running demoEnv (some 11) sockMax).1.nConnections =
      sockMax.nConnections :=
  max_connections_refused demoEnv 11 sockMax (by decide) (by decide) (by decide)

/-- C7: for every accepted connection that reaches the instance-name
lookup — whether the connection service is still referenced from a
previous episode or, the previous hand-off having released it, it is
re-minted by `socket_instantiate_service` inside the same call — an
ENOTCONN lookup drops the connection silently: the fd is closed
locally and state, result, both counters and the endpoint list are
all left unchanged (a listening unit remains LISTENING, no failure is
latched), while any other lookup error closes the fd and aborts to
the stop path latching FailureResources. -/
theorem enotconn_silent_drop (env : Env) (fd : Nat) (s : Sock)
    (hstop : env.stopPending = false)
    (hlt : s.nConnections < s.maxConnections)
    (hsvc : s.serviceSet = true ∨ env.instantiateOk = true) :
    (env.instanceLookup = .errEnotconn →
      (socket_enter_running env (some fd) s).2 = .closedLocal ∧
      (socket_enter_running env (some fd) s).1.state = s.state ∧
      (socket_enter_running env (some fd) s).1.result = s.result ∧
      (socket_enter_running env (some fd) s).1.nAccepted = s.nAccepted ∧
      (socket_enter_running env (some fd) s).1.nConnections =
        s.nConnections ∧
      (socket_enter_running env (some fd) s).1.ports = s.ports) ∧
    (env.instanceLookup = .errOther →
      (socket_enter_running env (some fd) s).2 = .closedLocal ∧
      (socket_enter_running env (some fd) s).1.result = .failureResources ∧
      stateRank (socket_enter_running env (some fd) s).1.state ≤ 6 ∧
      (socket_enter_running env (some fd) s).1.nAccepted = s.nAccepted ∧
      (socket_enter_running env (some fd) s).1.nConnections =
        s.nConnections) := by
  have hmint : ∃ s1, socket_instantiate_service env s = .ok s1 := by
    unfold socket_instantiate_service
    by_cases hss : s.serviceSet = true
    · rw [if_pos hss]
      exact ⟨s, rfl⟩
    · rw [if_neg hss]
      rcases hsvc with h | h
      · exact absurd h hss
      · rw [if_pos h]
        exact ⟨_, rfl⟩
  obtain ⟨s1, hs1⟩ := hmint
  have he := instantiate_eqs (Or.inl hs1)
  constructor
  · intro hil
    have hrun : socket_enter_running env (some fd) s = (s1, .closedLocal) := by
      unfold socket_enter_running
      rw [if_neg (by simp [hstop])]
      show socket_running_accept env s = _
      unfold socket_running_accept
      rw [if_neg (not_le.mpr hlt), hs1, hil]
    rw [hrun]
    exact ⟨rfl, he.2.1, he.2.2.1, he.2.2.2.1, he.2.2.2.2, he.1⟩
  · intro hil
    have hrun : socket_enter_running env (some fd) s =
        (socket_enter_stop_pre env .failureResources s1, .closedLocal) := by
      unfold socket_enter_running
      rw [if_neg (by simp [hstop])]
      show socket_running_accept env s = _
      unfold socket_running_accept
      rw [if_neg (not_le.mpr hlt), hs1, hil]
    rw [hrun]
    exact ⟨rfl, result_stop_pre_resources env s1, rank_stop_pre env _ s1,
      (counters_stop_pre env _ s1).1.trans he.2.2.2.1,
      (counters_stop_pre env _ s1).2.trans he.2.2.2.2⟩

/-- C7 witness: the listening fixture with its service UNSET (as after
a previous hand-off released it) re-mints the service, and the
ENOTCONN lookup still leaves state, result, counters and endpoints
untouched, the fd closed locally. -/
theorem enotconn_silent_drop_witness :
    (socket_enter_running envEnotconn (some 12) sockListen).2 =
      .closedLocal ∧
    (socket_enter_running envEnotconn (some 12) sockListen).1.state =
      sockListen.state ∧
    (socket_enter_running envEnotconn (some 12) sockListen).1.result =
      sockListen.result ∧
    (socket_enter_running envEnotconn (some 12) sockListen).1.nAccepted =
      sockListen.nAccepted ∧
    (socket_enter_running envEnotconn (some 12) sockListen).1.nConnections =
      sockListen.nConnections ∧
    (socket_enter_running envEnotconn (some 12) sockListen).1.ports =
      sockListen.ports :=
  (enotconn_silent_drop envEnotconn 12 sockListen (by decide) (by decide)
    (by decide)).1 (by decide)

/-- C8 (amended): on success the open-all loop visits the endpoint
list in order, keeping every already-open endpoint untouched and
giving every closed endpoint the fd its creation call returned; but on
a creation failure the `goto rollback` runs `socket_close_fds`, which
closes EVERY endpoint — the ones opened during this call and the ones
already open before it alike.  (A label-phase failure instead returns
with nothing closed; it is excluded here by `labelPhaseOk`.) -/
theorem open_fds_skip_and_rollback (env : Env) (s s1 : Sock) :
    (socket_open_fds env s = .ok s1 →
      List.Forall₂ (fun p q => (p.fd.isSome = true → q = p) ∧
        (p.fd = none → q.key = p.key ∧ q.fd = env.openOutcome p.key ∧
          q.watched = p.watched)) s.ports s1.ports) ∧
    (env.labelPhaseOk = true → socket_open_fds env s = .error s1 →
      ∀ p ∈ s1.ports, p.fd = none) := by
  constructor
  · intro h
    unfold socket_open_fds at h
    split at h
    · rename_i ps heq
      cases h
      exact open_loop_ok env false s.ports ps heq
    · cases h
    · cases h
  · intro hl h
    unfold socket_open_fds at h
    split at h
    · cases h
    · rename_i ps heq
      exact (open_loop_no_errReturn env false s.ports ps hl heq).elim
    · rename_i ps heq
      cases h
      exact close_fds_all_none _

/-- C8 witness: opening the half-open fixture under `demoEnv` keeps
the open endpoint's fd 5 and opens the closed one with the created
fd. -/
theorem open_fds_skip_and_rollback_witness :
    List.Forall₂ (fun p q => (p.fd.isSome = true → q = p) ∧
      (p.fd = none → q.key = p.key ∧ q.fd = demoEnv.openOutcome p.key ∧
        q.watched = p.watched)) sockHalfOpen.ports sockHalfOpenOk.ports :=
  (open_fds_skip_and_rollback demoEnv sockHalfOpen sockHalfOpenOk).1 rfl

/-- C8 counterexample: when creating `/run/b` fails, the rollback does
NOT restrict itself to the endpoints opened during this call — the
endpoint at `/run/a`, already open with fd 5 before the call, comes
out closed as well. -/
theorem open_fds_rollback_counterexample :
    socket_open_fds envFailB sockHalfOpen =
      .error { sockHalfOpen with
               ports := [⟨PortKey.fifo "/run/a", none, false⟩,
                         ⟨PortKey.fifo "/run/b", none, false⟩] } ∧
    sockHalfOpen.ports.map SocketPort.fd = [some 5, none] := by
  exact ⟨rfl, by decide⟩

/-- C9 (amended): `socket_serialize` emits the `result` line
UNCONDITIONALLY — also when the latched result is Success — and
deserializing a Success `result` line is a no-op, so the roundtrip is
unaffected. -/
theorem serialize_result_line_unconditional (s : Sock) :
    SerLine.resultLine s.result ∈ socket_serialize s ∧
    (∀ fds, socket_deserialize_item fds (SerLine.resultLine .success) s =
      (s, fds)) := by
  constructor
  · unfold socket_serialize
    simp
  · intro fds
    simp [socket_deserialize_item]

/-- C9 counterexample: the fresh fixture has result Success, yet its
serialization contains the `result` line — the line is not skipped
when the result is Success. -/
theorem serialize_result_line_counterexample :
    demoSock.result = .success ∧
    SerLine.resultLine .success ∈ socket_serialize demoSock := by
  exact ⟨by decide, by decide⟩

lemma start_pre_ok_eqs (env : Env) (t : Sock)
    (hc : ¬ (t.execCommand.get .startPre = []))
    (hsp : env.spawnOk .startPre = true) :
    (socket_enter_start_pre env t).state = .startPre ∧
    (socket_enter_start_pre env t).result = t.result := by
  simp only [socket_enter_start_pre]
  split
  · split
    · rename_i s1 pid heq
      refine ⟨set_state_state _ _, ?_⟩
      rw [set_state_result]
      show s1.result = t.result
      exact (spawn_ok_eqs heq).2.2
    · rename_i s1 heq
      unfold socket_spawn at heq
      split at heq
      · cases heq
      · rename_i hcond
        exact absurd hsp hcond
  · rename_i hcond
    exact absurd (not_not.mp hcond) hc

/-- C10: an accepted start request on a DEAD or FAILED unit first
resets the latched result to Success and then enters START_PRE, so a
failure recorded by an earlier run is cleared by starting again, with
no reset_failed needed; when ExecStartPre exists and spawns, the unit
ends in StartPre with result Success. -/
theorem start_resets_latched_result (env : Env) (s : Sock)
    (hstate : s.state = .dead ∨ s.state = .failed)
    (hsvc : s.serviceSet = true →
      env.serviceLoaded = true ∧ env.serviceActive = false) :
    (socket_start env s).1 = 0 ∧
    (socket_start env s).2 =
      socket_enter_start_pre env { s with result := .success } ∧
    (s.execCommand.get .startPre ≠ [] → env.spawnOk .startPre = true →
      (socket_start env s).2.state = .startPre ∧
      (socket_start env s).2.result = .success) := by
  have hne1 : ¬(s.state = .stopPre ∨ s.state = .stopPreSigkill ∨
      s.state = .stopPreSigterm ∨ s.state = .stopPost ∨
      s.state = .finalSigterm ∨ s.state = .finalSigkill) := by
    rcases hstate with h | h <;> simp [h]
  have hne2 : ¬(s.state = .startPre ∨ s.state = .startChown ∨
      s.state = .startPost) := by
    rcases hstate with h | h <;> simp [h]
  have hne3 : ¬(s.serviceSet = true ∧ ¬ env.serviceLoaded = true) := by
    intro hcon
    exact hcon.2 (hsvc hcon.1).1
  have hne4 : ¬(s.serviceSet = true ∧ env.serviceActive = true) := by
    intro hcon
    rw [(hsvc hcon.1).2] at hcon
    exact Bool.false_ne_true hcon.2
  have heq : socket_start env s =
      (0, socket_enter_start_pre env { s with result := .success }) := by
    unfold socket_start
    rw [if_neg hne1, if_neg hne2, if_neg hne3, if_neg hne4, if_pos hstate]
  refine ⟨by rw [heq], by rw [heq], fun hc hsp => ?_⟩
  rw [heq]
  have h := start_pre_ok_eqs env { s with result := .success } hc hsp
  exact ⟨h.1, h.2⟩

/-- C10 witness: starting the FAILED fixture (latched
FailureExitCode) ends in StartPre with result Success. -/
theorem start_resets_latched_result_witness :
    sockFailed.result = .failureExitCode ∧
    (socket_start demoEnv sockFailed).2.state = .startPre ∧
    (socket_start demoEnv sockFailed).2.result = .success :=
  ⟨by decide,
   (start_resets_latched_result demoEnv sockFailed (by decide)
     (by decide)).2.2 (by decide) (by decide)⟩
